import Mathlib

/-!
Verification development for the ESX-side docker-volume service
(`vmdk_ops.py` and `volume_kv.py`).

Text is modelled as `List Char` (ASCII-level model of Python `str`).
External collaborators (the hypervisor reconfiguration facility, the
filesystem, the VMCI transport, external commands) are modelled as
explicit oracles/environment records; pure program logic is translated
directly from the source.
-/

/-- The single-quote character, kept out of string literals. -/
def qch : Char := Char.ofNat 39

/-- Python `str.isdigit()` restricted to ASCII: true iff the string is
nonempty and every character is a decimal digit. -/
def pyIsDigit (s : List Char) : Bool :=
  !s.isEmpty && s.all Char.isDigit

/-- ASCII lower-casing of one character, modelling Python `str.lower()`
on the ASCII subset the size strings use. -/
def pyLower (c : Char) : Char :=
  if 'A' ≤ c && c ≤ 'Z' then Char.ofNat (c.toNat + 32) else c

/-- `size.lower().endswith(('kb', 'mb', 'gb', 'tb'))` from
`validate_size` (vmdk_ops.py): the last two characters, lower-cased,
are one of the four units. -/
def sizeEndsWithUnit (s : List Char) : Bool :=
  match s.reverse with
  | b :: u :: _ =>
      pyLower b = 'b' &&
        (pyLower u = 'k' || pyLower u = 'm' || pyLower u = 'g' || pyLower u = 't')
  | _ => false

/-- `validate_size` (vmdk_ops.py, lines 211-221): accepts (does not
raise `ValidationError`) iff the string ends, case-insensitively, in
kb/mb/gb/tb and everything before the last two characters
(`size[:-2]`) satisfies `isdigit()`. Returns `true` for accept. -/
def validate_size (s : List Char) : Bool :=
  sizeEndsWithUnit s && pyIsDigit (s.dropLast.dropLast)

/-- A two-character unit suffix kb/mb/gb/tb, case-insensitive. -/
def unitPair (u b : Char) : Bool :=
  pyLower b = 'b' &&
    (pyLower u = 'k' || pyLower u = 'm' || pyLower u = 'g' || pyLower u = 't')

/-- Numeric value of a digit string (most significant first). -/
def digitsVal (cs : List Char) : Nat :=
  cs.foldl (fun a c => 10 * a + (c.toNat - 48)) 0

/-- The spec's reading of a valid size string: a positive integer
immediately followed by one of the units kb/mb/gb/tb
(case-insensitive). Written from the spec's words, for comparison
with `validate_size`. -/
def specPosIntSize (s : List Char) : Prop :=
  ∃ ds u b, s = ds ++ [u, b] ∧ ds ≠ [] ∧ (∀ c ∈ ds, c.isDigit) ∧
    0 < digitsVal ds ∧ unitPair u b = true

/-- Like `specPosIntSize` but only requiring a nonempty digit string
(a nonnegative integer), the amended reading. -/
def specDigitSize (s : List Char) : Prop :=
  ∃ ds u b, s = ds ++ [u, b] ∧ ds ≠ [] ∧ (∀ c ∈ ds, c.isDigit) ∧
    unitPair u b = true

theorem dropLast_dropLast_append (l : List Char) (u b : Char) :
    (l ++ [u, b]).dropLast.dropLast = l := by
  have h1 : l ++ [u, b] = (l ++ [u]) ++ [b] := by simp
  rw [h1, List.dropLast_concat, List.dropLast_concat]

theorem validate_size_iff (s : List Char) :
    validate_size s = true ↔ specDigitSize s := by
  constructor
  · intro h
    unfold validate_size at h
    rw [Bool.and_eq_true] at h
    rcases h with ⟨hend, hdig⟩
    unfold sizeEndsWithUnit at hend
    match hrev : s.reverse with
    | [] => rw [hrev] at hend; simp at hend
    | [b] => rw [hrev] at hend; simp at hend
    | b :: u :: t =>
        rw [hrev] at hend
        have hs : s = t.reverse ++ [u, b] := by
          have := congrArg List.reverse hrev
          simpa using this
        refine ⟨t.reverse, u, b, hs, ?_, ?_, ?_⟩
        · intro hnil
          rw [hs, hnil] at hdig
          simp [pyIsDigit, List.dropLast] at hdig
        · intro c hc
          rw [hs, dropLast_dropLast_append] at hdig
          unfold pyIsDigit at hdig
          rw [Bool.and_eq_true] at hdig
          rcases hdig with ⟨_, hall⟩
          exact List.all_eq_true.mp hall c hc
        · unfold unitPair
          exact hend
  · rintro ⟨ds, u, b, rfl, hne, hall, hu⟩
    unfold validate_size
    rw [Bool.and_eq_true]
    refine ⟨?_, ?_⟩
    · unfold sizeEndsWithUnit
      have : (ds ++ [u, b]).reverse = b :: u :: ds.reverse := by simp
      rw [this]
      exact hu
    · rw [dropLast_dropLast_append]
      unfold pyIsDigit
      rw [Bool.and_eq_true]
      refine ⟨?_, ?_⟩
      · cases ds with
        | nil => exact absurd rfl hne
        | cons c t => simp [List.isEmpty]
      · exact List.all_eq_true.mpr hall

/-- C2 counterexample: the claim says `validate_size` accepts exactly
the strings of the form positive-integer + unit, but the code accepts
"0mb" even though 0 is not a positive integer (`isdigit` only checks
for digits). -/
theorem C2_counterexample_zero_size :
    validate_size "0mb".toList = true ∧ ¬ specPosIntSize "0mb".toList := by
  refine ⟨by decide, ?_⟩
  rintro ⟨ds, u, b, heq, hne, hall, hpos, hu⟩
  have heq' : (['0', 'm', 'b'] : List Char) = ds ++ [u, b] := heq
  have hlen : ds.length = 1 := by
    have := congrArg List.length heq'
    simp at this
    omega
  obtain ⟨c, rfl⟩ := List.length_eq_one.mp hlen
  have hc : c = '0' ∧ u = 'm' ∧ b = 'b' := by
    simpa using heq'.symm
  rcases hc with ⟨rfl, rfl, rfl⟩
  simp [digitsVal] at hpos

/-- C2 (amended): `validate_size` accepts a size string iff it is a
nonempty decimal-digit string (a nonnegative integer, leading zeros
allowed) immediately followed by one of the units kb, mb, gb, tb
(case-insensitive); in particular "100mb" is accepted and "100",
"-5gb", "10xb" are rejected. -/
theorem C2_validate_size_amended :
    (∀ s, validate_size s = true ↔ specDigitSize s) ∧
    validate_size "100mb".toList = true ∧
    validate_size "100".toList = false ∧
    validate_size "-5gb".toList = false ∧
    validate_size "10xb".toList = false :=
  ⟨validate_size_iff, by decide, by decide, by decide, by decide⟩

/-!
## JSON model

The service exchanges JSON with clients and persists volume metadata as
JSON (`json.dumps` / `json.loads` in the source). The Python `json`
module is an external library; it is modelled here by a serializer and
a recursive-descent parser over the JSON subset the system exchanges
(null, booleans, integers, strings, arrays, objects; Python's default
separators ", " and ": ", strings escaped with backslash escapes and
`u00XX` escapes for control characters). `json.loads` ignores
surrounding whitespace, which the parser reproduces.
-/

inductive JVal where
  | jnull : JVal
  | jbool : Bool → JVal
  | jnum : Int → JVal
  | jstr : List Char → JVal
  | jarr : List JVal → JVal
  | jobj : List (List Char × JVal) → JVal

/-- Decimal digit to character. -/
def digitChar (n : Nat) : Char :=
  if n = 0 then '0' else if n = 1 then '1' else if n = 2 then '2'
  else if n = 3 then '3' else if n = 4 then '4' else if n = 5 then '5'
  else if n = 6 then '6' else if n = 7 then '7' else if n = 8 then '8'
  else '9'

/-- Decimal representation of a natural number, as Python `str` emits it. -/
def natChars (n : Nat) : List Char :=
  if n = 0 then ['0'] else ((Nat.digits 10 n).map digitChar).reverse

/-- Decimal representation of an integer. -/
def intChars (n : Int) : List Char :=
  if n < 0 then '-' :: natChars n.natAbs else natChars n.toNat

/-- Lower-case hex digit (only 0-15 used). -/
def hexDigitChar (n : Nat) : Char :=
  if n < 10 then digitChar n
  else if n = 10 then 'a' else if n = 11 then 'b' else if n = 12 then 'c'
  else if n = 13 then 'd' else if n = 14 then 'e' else 'f'

/-- JSON escaping of one string character: quote and backslash get a
backslash escape, control characters an `u00XX` escape, everything
else is emitted literally. -/
def escapeChar (c : Char) : List Char :=
  if c = '"' then ['\\', '"']
  else if c = '\\' then ['\\', '\\']
  else if c.toNat < 32 then
    ['\\', 'u', '0', '0', hexDigitChar (c.toNat / 16), hexDigitChar (c.toNat % 16)]
  else [c]

/-- JSON escaping of a string body. -/
def escapeStr (s : List Char) : List Char :=
  s.foldr (fun c acc => escapeChar c ++ acc) []

/-- A JSON string literal: quote, escaped body, quote. -/
def dumpStr (s : List Char) : List Char :=
  '"' :: escapeStr s ++ ['"']

mutual

/-- `json.dumps` on the modelled JSON subset (default separators). -/
def dumpVal : JVal → List Char
  | .jnull => ['n', 'u', 'l', 'l']
  | .jbool true => ['t', 'r', 'u', 'e']
  | .jbool false => ['f', 'a', 'l', 's', 'e']
  | .jnum n => intChars n
  | .jstr s => dumpStr s
  | .jarr xs => '[' :: dumpArr xs ++ [']']
  | .jobj fs => '\x7b' :: dumpObj fs ++ ['\x7d']

/-- Array elements, separated by ", ". -/
def dumpArr : List JVal → List Char
  | [] => []
  | [x] => dumpVal x
  | x :: y :: t => dumpVal x ++ ',' :: ' ' :: dumpArr (y :: t)

/-- Object fields, `"key": value` separated by ", ". -/
def dumpObj : List (List Char × JVal) → List Char
  | [] => []
  | [(k, v)] => dumpStr k ++ ':' :: ' ' :: dumpVal v
  | (k, v) :: p :: t => dumpStr k ++ ':' :: ' ' :: dumpVal v ++ ',' :: ' ' :: dumpObj (p :: t)

end

/-- JSON whitespace. -/
def isWsChar (c : Char) : Bool :=
  c = ' ' || c = '\t' || c = '\n' || c = '\r'

/-- Skip leading whitespace. -/
def skipWs (s : List Char) : List Char :=
  s.dropWhile isWsChar

/-- Value of one hex digit. -/
def hexVal (c : Char) : Option Nat :=
  if '0' ≤ c ∧ c ≤ '9' then some (c.toNat - 48)
  else if 'a' ≤ c ∧ c ≤ 'f' then some (c.toNat - 87)
  else if 'A' ≤ c ∧ c ≤ 'F' then some (c.toNat - 55)
  else none

/-- Single-character backslash escapes accepted in strings. -/
def unescChar (c : Char) : Option Char :=
  if c = '"' then some '"'
  else if c = '\\' then some '\\'
  else if c = '/' then some '/'
  else if c = 'n' then some '\n'
  else if c = 't' then some '\t'
  else if c = 'r' then some '\r'
  else if c = 'b' then some (Char.ofNat 8)
  else if c = 'f' then some (Char.ofNat 12)
  else none

/-- Parse a string body up to and including the closing quote. -/
def parseStrBody : List Char → Option (List Char × List Char)
  | [] => none
  | c :: r =>
    if c = '"' then some ([], r)
    else if c = '\\' then
      match r with
      | [] => none
      | e :: r2 =>
        if e = 'u' then
          match r2 with
          | h1 :: h2 :: h3 :: h4 :: r3 =>
            match hexVal h1, hexVal h2, hexVal h3, hexVal h4 with
            | some a, some b, some c2, some d =>
              match parseStrBody r3 with
              | some (s, r4) => some (Char.ofNat (4096 * a + 256 * b + 16 * c2 + d) :: s, r4)
              | none => none
            | _, _, _, _ => none
          | _ => none
        else
          match unescChar e with
          | some c2 =>
            match parseStrBody r2 with
            | some (s, r3) => some (c2 :: s, r3)
            | none => none
          | none => none
    else if c.toNat < 32 then none
    else
      match parseStrBody r with
      | some (s, r2) => some (c :: s, r2)
      | none => none

/-- Parse a run of decimal digits. -/
def parseNat (s : List Char) : Option (Nat × List Char) :=
  if (s.takeWhile Char.isDigit).isEmpty then none
  else some (digitsVal (s.takeWhile Char.isDigit), s.drop (s.takeWhile Char.isDigit).length)

mutual

/-- Recursive-descent JSON value parser (fuel-indexed). -/
def parseVal : Nat → List Char → Option (JVal × List Char)
  | 0, _ => none
  | fuel + 1, s =>
    match skipWs s with
    | [] => none
    | c :: r =>
      if c = '"' then
        match parseStrBody r with
        | some (str, r2) => some (.jstr str, r2)
        | none => none
      else if c = '[' then
        match parseArrElems fuel r with
        | some (xs, r2) => some (.jarr xs, r2)
        | none => none
      else if c = '\x7b' then
        match parseObjFields fuel r with
        | some (fs, r2) => some (.jobj fs, r2)
        | none => none
      else if c = '-' then
        match parseNat r with
        | some (m, r2) => some (.jnum (-(m : Int)), r2)
        | none => none
      else if c.isDigit then
        match parseNat (c :: r) with
        | some (m, r2) => some (.jnum (m : Int), r2)
        | none => none
      else if c = 'n' then
        match r with
        | 'u' :: 'l' :: 'l' :: r2 => some (.jnull, r2)
        | _ => none
      else if c = 't' then
        match r with
        | 'r' :: 'u' :: 'e' :: r2 => some (.jbool true, r2)
        | _ => none
      else if c = 'f' then
        match r with
        | 'a' :: 'l' :: 's' :: 'e' :: r2 => some (.jbool false, r2)
        | _ => none
      else none

/-- Array elements after the opening bracket (handles the empty array). -/
def parseArrElems : Nat → List Char → Option (List JVal × List Char)
  | 0, _ => none
  | fuel + 1, s =>
    match skipWs s with
    | [] => none
    | d :: r =>
      if d = ']' then some ([], r)
      else
        match parseVal fuel (d :: r) with
        | some (v, r2) =>
          (match skipWs r2 with
           | [] => none
           | e :: r3 =>
             if e = ',' then
               match parseArrElems fuel r3 with
               | some (vs, r4) => some (v :: vs, r4)
               | none => none
             else if e = ']' then some ([v], r3)
             else none)
        | none => none

/-- Object fields after the opening brace (handles the empty object). -/
def parseObjFields : Nat → List Char → Option (List (List Char × JVal) × List Char)
  | 0, _ => none
  | fuel + 1, s =>
    match skipWs s with
    | [] => none
    | d :: r =>
      if d = '\x7d' then some ([], r)
      else if d = '"' then
        match parseStrBody r with
        | some (k, r1) =>
          (match skipWs r1 with
           | [] => none
           | e :: r2 =>
             if e = ':' then
               match parseVal fuel r2 with
               | some (v, r3) =>
                 (match skipWs r3 with
                  | [] => none
                  | f :: r4 =>
                    if f = ',' then
                      match parseObjFields fuel r4 with
                      | some (fs, r5) => some ((k, v) :: fs, r5)
                      | none => none
                    else if f = '\x7d' then some ([(k, v)], r4)
                    else none)
               | none => none
             else none)
        | none => none
      else none

end

/-- `json.loads`: parse one value, allow surrounding whitespace, reject
trailing garbage. -/
def jsonLoads (s : List Char) : Option JVal :=
  match parseVal (3 * s.length + 3) s with
  | some (v, rest) => if (skipWs rest).isEmpty then some v else none
  | none => none

/-- All characters of a list are JSON whitespace. -/
def wsOnly (w : List Char) : Prop := ∀ c ∈ w, isWsChar c = true

/-- The list is empty or its head fails the predicate `p`. -/
def headFails (p : Char → Bool) : List Char → Prop
  | [] => True
  | c :: _ => p c = false

theorem skipWs_cons_false {c : Char} {r : List Char} (h : isWsChar c = false) :
    skipWs (c :: r) = c :: r := by
  simp [skipWs, List.dropWhile_cons, h]

theorem skipWs_append {w : List Char} (l : List Char) (hw : wsOnly w) :
    skipWs (w ++ l) = skipWs l := by
  induction w with
  | nil => simp
  | cons c t ih =>
      have hc : isWsChar c = true := hw c (by simp)
      have ht : wsOnly t := fun x hx => hw x (by simp [hx])
      simp only [List.cons_append, skipWs, List.dropWhile_cons, hc, if_true]
      exact ih ht

theorem digit_ne {c d : Char} (h : c.isDigit = true) (hd : d.isDigit = false) : c ≠ d := by
  rintro rfl
  rw [h] at hd
  cases hd

theorem isWsChar_of_digit {c : Char} (h : c.isDigit = true) : isWsChar c = false := by
  cases hc : isWsChar c
  · rfl
  · exfalso
    simp only [isWsChar, Bool.or_eq_true, decide_eq_true_eq] at hc
    rcases hc with ((rfl | rfl) | rfl) | rfl <;> exact absurd h (by decide)

theorem digitChar_isDigit (d : Nat) : (digitChar d).isDigit = true := by
  unfold digitChar
  split_ifs <;> decide

theorem digitChar_toNat {d : Nat} (h : d < 10) : (digitChar d).toNat - 48 = d := by
  interval_cases d <;> decide

theorem digitsVal_append (l : List Char) (c : Char) :
    digitsVal (l ++ [c]) = 10 * digitsVal l + (c.toNat - 48) := by
  simp [digitsVal, List.foldl_append]

theorem digitsVal_ofDigits (l : List Nat) (h : ∀ d ∈ l, d < 10) :
    digitsVal ((l.map digitChar).reverse) = Nat.ofDigits 10 l := by
  induction l with
  | nil => simp [digitsVal, Nat.ofDigits_nil]
  | cons d t ih =>
      simp only [List.map_cons, List.reverse_cons]
      rw [digitsVal_append, ih (fun x hx => h x (by simp [hx])),
          digitChar_toNat (h d (by simp)), Nat.ofDigits_cons]
      ring

theorem natChars_all_digit (n : Nat) : ∀ c ∈ natChars n, c.isDigit = true := by
  intro c hc
  unfold natChars at hc
  split at hc
  · simp at hc
    subst hc
    decide
  · rw [List.mem_reverse] at hc
    obtain ⟨d, _, rfl⟩ := List.mem_map.mp hc
    exact digitChar_isDigit d

theorem digitsVal_natChars (n : Nat) : digitsVal (natChars n) = n := by
  unfold natChars
  split
  · subst ‹n = 0›
    decide
  · rw [digitsVal_ofDigits _ (fun d hd => Nat.digits_lt_base (by norm_num) hd)]
    exact Nat.ofDigits_digits 10 n

theorem natChars_ne_nil (n : Nat) : natChars n ≠ [] := by
  unfold natChars
  split
  · simp
  · simp only [ne_eq, List.reverse_eq_nil_iff, List.map_eq_nil_iff]
    exact Nat.digits_ne_nil_iff_ne_zero.mpr ‹¬n = 0›

theorem natChars_cons (n : Nat) :
    ∃ c cs, natChars n = c :: cs ∧ c.isDigit = true := by
  cases h : natChars n with
  | nil => exact absurd h (natChars_ne_nil n)
  | cons c cs =>
      exact ⟨c, cs, rfl, natChars_all_digit n c (h ▸ List.mem_cons_self c cs)⟩

theorem takeWhile_all_append {p : Char → Bool} {l r : List Char}
    (hl : ∀ c ∈ l, p c = true) (hr : headFails p r) :
    (l ++ r).takeWhile p = l ∧ (l ++ r).dropWhile p = r.dropWhile p := by
  induction l with
  | nil =>
      cases r with
      | nil => simp
      | cons c t =>
          have hr' : p c = false := hr
          refine ⟨?_, rfl⟩
          simp [List.takeWhile_cons, hr']
  | cons c t ih =>
      have hc : p c = true := hl c (by simp)
      have ht : ∀ x ∈ t, p x = true := fun x hx => hl x (by simp [hx])
      obtain ⟨h1, h2⟩ := ih ht
      constructor
      · simp [List.takeWhile_cons, hc, h1]
      · simp [List.dropWhile_cons, hc, h2]

theorem parseNat_natChars (n : Nat) (rest : List Char)
    (hr : headFails Char.isDigit rest) :
    parseNat (natChars n ++ rest) = some (n, rest) := by
  unfold parseNat
  obtain ⟨htake, _⟩ := takeWhile_all_append (natChars_all_digit n) hr
  rw [htake]
  have hne : (natChars n).isEmpty = false := by
    cases h : natChars n with
    | nil => exact absurd h (natChars_ne_nil n)
    | cons c cs => rfl
  rw [hne]
  simp [digitsVal_natChars, List.drop_left]

theorem hexVal_hexDigitChar : ∀ n, n < 16 → hexVal (hexDigitChar n) = some n := by decide

theorem parseStrBody_escape (s rest : List Char) :
    parseStrBody (escapeStr s ++ '"' :: rest) = some (s, rest) := by
  induction s with
  | nil =>
      show parseStrBody ('"' :: rest) = some ([], rest)
      rw [parseStrBody.eq_def]
      dsimp only
      rw [if_pos rfl]
  | cons c t ih =>
      rw [show escapeStr (c :: t) = escapeChar c ++ escapeStr t from rfl, List.append_assoc]
      by_cases h1 : c = '"'
      · subst h1
        rw [show escapeChar '"' = ['\\', '"'] from by decide]
        rw [List.cons_append, List.cons_append, List.nil_append]
        rw [parseStrBody.eq_def]
        dsimp only
        rw [if_neg (by decide), if_pos rfl]
        rw [if_neg (by decide), show unescChar '"' = some '"' from by decide]
        dsimp only
        rw [ih]
      · by_cases h2 : c = '\\'
        · subst h2
          rw [show escapeChar '\\' = ['\\', '\\'] from by decide]
          rw [List.cons_append, List.cons_append, List.nil_append]
          rw [parseStrBody.eq_def]
          dsimp only
          rw [if_neg (by decide), if_pos rfl]
          rw [if_neg (by decide), show unescChar '\\' = some '\\' from by decide]
          dsimp only
          rw [ih]
        · by_cases h3 : c.toNat < 32
          · have hdiv : c.toNat / 16 < 16 := by omega
            have hmod : c.toNat % 16 < 16 := Nat.mod_lt _ (by norm_num)
            simp only [escapeChar, if_neg h1, if_neg h2, if_pos h3]
            simp only [List.cons_append, List.nil_append]
            rw [parseStrBody.eq_def]
            dsimp only
            rw [if_neg (by decide), if_pos rfl]
            rw [if_pos rfl]
            rw [show hexVal '0' = some 0 from by decide,
                hexVal_hexDigitChar _ hdiv, hexVal_hexDigitChar _ hmod]
            dsimp only
            rw [ih]
            dsimp only
            have harith : 4096 * 0 + 256 * 0 + 16 * (c.toNat / 16) + c.toNat % 16 = c.toNat := by
              omega
            rw [harith, Char.ofNat_toNat]
          · simp only [escapeChar, if_neg h1, if_neg h2, if_neg h3]
            simp only [List.cons_append, List.nil_append]
            rw [parseStrBody.eq_def]
            dsimp only
            rw [if_neg h1, if_neg h2, if_neg h3]
            rw [ih]

mutual

/-- Parser-fuel weight of a JSON value. -/
def jweight : JVal → Nat
  | .jnull => 1
  | .jbool _ => 1
  | .jnum _ => 1
  | .jstr _ => 1
  | .jarr xs => 2 + jweightArr xs
  | .jobj fs => 2 + jweightObj fs

/-- Parser-fuel weight of array elements. -/
def jweightArr : List JVal → Nat
  | [] => 0
  | x :: t => 1 + jweight x + jweightArr t

/-- Parser-fuel weight of object fields. -/
def jweightObj : List (List Char × JVal) → Nat
  | [] => 0
  | (_, v) :: t => 1 + jweight v + jweightObj t

end

theorem jweight_pos (v : JVal) : 1 ≤ jweight v := by
  cases v <;> simp [jweight] <;> omega

theorem dumpVal_head (v : JVal) :
    ∃ c cs, dumpVal v = c :: cs ∧ isWsChar c = false ∧ c ≠ ']' ∧ c ≠ '\x7d' := by
  cases v with
  | jnull => exact ⟨'n', _, rfl, by decide, by decide, by decide⟩
  | jbool b =>
      cases b
      case false => refine ⟨'f', _, rfl, by decide, by decide, by decide⟩
      case true => refine ⟨'t', _, rfl, by decide, by decide, by decide⟩
  | jnum n =>
      by_cases hn : n < 0
      · refine ⟨'-', natChars n.natAbs, ?_, by decide, by decide, by decide⟩
        simp [dumpVal, intChars, hn]
      · obtain ⟨c, cs, hc, hdig⟩ := natChars_cons n.toNat
        refine ⟨c, cs, ?_, isWsChar_of_digit hdig, digit_ne hdig (by decide),
          digit_ne hdig (by decide)⟩
        simp [dumpVal, intChars, hn, hc]
  | jstr s => exact ⟨'"', _, rfl, by decide, by decide, by decide⟩
  | jarr xs => exact ⟨'[', _, rfl, by decide, by decide, by decide⟩
  | jobj fs => exact ⟨'\x7b', _, rfl, by decide, by decide, by decide⟩

theorem wsOnly_nil : wsOnly [] := by
  intro c hc
  cases hc

theorem wsOnly_space : wsOnly [' '] := by
  intro c hc
  simp at hc
  subst hc
  decide

theorem headFails_cons {p : Char → Bool} {c : Char} {r : List Char} (h : p c = false) :
    headFails p (c :: r) := h

theorem parse_dump_all : ∀ F : Nat,
    (∀ v w rest, jweight v ≤ F → wsOnly w → headFails Char.isDigit rest →
       parseVal F (w ++ dumpVal v ++ rest) = some (v, rest)) ∧
    (∀ xs w rest, 1 + jweightArr xs ≤ F → wsOnly w →
       parseArrElems F (w ++ dumpArr xs ++ ']' :: rest) = some (xs, rest)) ∧
    (∀ fs w rest, 1 + jweightObj fs ≤ F → wsOnly w →
       parseObjFields F (w ++ dumpObj fs ++ '\x7d' :: rest) = some (fs, rest)) := by
  intro F
  induction F with
  | zero =>
      refine ⟨fun v w rest hF _ _ => absurd hF ?_, fun xs w rest hF _ => absurd hF ?_,
        fun fs w rest hF _ => absurd hF ?_⟩
      · have := jweight_pos v
        omega
      · omega
      · omega
  | succ F ih =>
      obtain ⟨ih1, ih2, ih3⟩ := ih
      refine ⟨?_, ?_, ?_⟩
      · -- parseVal round trip
        intro v w rest hF hw hrest
        obtain ⟨c, cs, hd, hcw, _, _⟩ := dumpVal_head v
        rw [parseVal.eq_def]
        dsimp only
        rw [List.append_assoc, skipWs_append _ hw, hd, List.cons_append,
          skipWs_cons_false hcw, ← List.cons_append, ← hd]
        cases v with
        | jnull =>
            dsimp only [dumpVal, List.cons_append, List.nil_append]
            rw [if_neg (by decide), if_neg (by decide), if_neg (by decide),
              if_neg (by decide), if_neg (by decide), if_pos rfl]
            rfl
        | jbool b =>
            cases b with
            | true =>
                dsimp only [dumpVal, List.cons_append, List.nil_append]
                rw [if_neg (by decide), if_neg (by decide), if_neg (by decide),
                  if_neg (by decide), if_neg (by decide), if_neg (by decide), if_pos rfl]
                rfl
            | false =>
                dsimp only [dumpVal, List.cons_append, List.nil_append]
                rw [if_neg (by decide), if_neg (by decide), if_neg (by decide),
                  if_neg (by decide), if_neg (by decide), if_neg (by decide),
                  if_neg (by decide), if_pos rfl]
                rfl
        | jnum n =>
            by_cases hn : n < 0
            · dsimp only [dumpVal]
              rw [show intChars n = '-' :: natChars n.natAbs from by rw [intChars, if_pos hn]]
              rw [List.cons_append]
              dsimp only
              rw [if_neg (by decide), if_neg (by decide), if_neg (by decide), if_pos rfl]
              rw [parseNat_natChars _ _ hrest]
              dsimp only
              rw [show -((n.natAbs : Nat) : Int) = n from by omega]
            · obtain ⟨c0, cs0, hc0, hdig0⟩ := natChars_cons n.toNat
              dsimp only [dumpVal]
              rw [show intChars n = natChars n.toNat from by rw [intChars, if_neg hn], hc0]
              rw [List.cons_append]
              dsimp only
              rw [if_neg (digit_ne hdig0 (by decide)), if_neg (digit_ne hdig0 (by decide)),
                if_neg (digit_ne hdig0 (by decide)), if_neg (digit_ne hdig0 (by decide)),
                if_pos hdig0]
              rw [show c0 :: (cs0 ++ rest) = natChars n.toNat ++ rest from by
                rw [hc0, List.cons_append]]
              rw [parseNat_natChars _ _ hrest]
              dsimp only
              rw [show ((n.toNat : Nat) : Int) = n from by omega]
        | jstr s =>
            dsimp only [dumpVal, dumpStr]
            simp only [List.cons_append, List.nil_append, List.append_assoc]
            rw [if_pos trivial, parseStrBody_escape]
        | jarr xs =>
            have hF' : 1 + jweightArr xs ≤ F := by
              have h2 : 2 + jweightArr xs ≤ F + 1 := by simpa [jweight] using hF
              omega
            dsimp only [dumpVal]
            simp only [List.cons_append, List.nil_append, List.append_assoc]
            rw [if_neg (by decide), if_pos trivial]
            have h2 : parseArrElems F (dumpArr xs ++ ']' :: rest) = some (xs, rest) := by
              have := ih2 xs [] rest hF' wsOnly_nil
              simpa only [List.nil_append] using this
            rw [h2]
        | jobj fs =>
            have hF' : 1 + jweightObj fs ≤ F := by
              have h2 : 2 + jweightObj fs ≤ F + 1 := by simpa [jweight] using hF
              omega
            dsimp only [dumpVal]
            simp only [List.cons_append, List.nil_append, List.append_assoc]
            rw [if_neg (by decide), if_neg (by decide), if_pos trivial]
            have h3 : parseObjFields F (dumpObj fs ++ '\x7d' :: rest) = some (fs, rest) := by
              have := ih3 fs [] rest hF' wsOnly_nil
              simpa only [List.nil_append] using this
            rw [h3]
      · -- parseArrElems round trip
        intro xs w rest hF hw
        rw [parseArrElems.eq_def]
        dsimp only
        rw [List.append_assoc, skipWs_append _ hw]
        cases xs with
        | nil =>
            rw [show dumpArr [] = ([] : List Char) from rfl, List.nil_append,
              skipWs_cons_false (by decide)]
            dsimp only
            rw [if_pos rfl]
        | cons x t =>
            obtain ⟨c, cs, hd, hcw, hne1, _⟩ := dumpVal_head x
            cases t with
            | nil =>
                have hFx : jweight x ≤ F := by
                  have h0 : 1 + jweightArr [x] ≤ F + 1 := hF
                  have h1 : jweightArr [x] = 1 + jweight x + 0 := rfl
                  omega
                rw [show dumpArr [x] = dumpVal x from rfl, hd, List.cons_append,
                  skipWs_cons_false hcw]
                dsimp only
                rw [if_neg hne1]
                have hv : parseVal F (c :: (cs ++ ']' :: rest)) = some (x, ']' :: rest) := by
                  have := ih1 x [] (']' :: rest) hFx wsOnly_nil (headFails_cons (by decide))
                  simpa only [hd, List.nil_append, List.cons_append] using this
                rw [hv]
                dsimp only
                rw [skipWs_cons_false (by decide)]
                dsimp only
                rw [if_neg (by decide), if_pos rfl]
            | cons y t2 =>
                have hFx : jweight x ≤ F ∧ 1 + jweightArr (y :: t2) ≤ F := by
                  have h0 : 1 + jweightArr (x :: y :: t2) ≤ F + 1 := hF
                  have h1 : jweightArr (x :: y :: t2) =
                      1 + jweight x + jweightArr (y :: t2) := rfl
                  have := jweight_pos x
                  omega
                rw [show dumpArr (x :: y :: t2) =
                  dumpVal x ++ ',' :: ' ' :: dumpArr (y :: t2) from rfl, hd]
                simp only [List.cons_append, List.nil_append, List.append_assoc]
                rw [skipWs_cons_false hcw]
                dsimp only
                rw [if_neg hne1]
                have hv : parseVal F
                    (c :: (cs ++ (',' :: ' ' :: (dumpArr (y :: t2) ++ ']' :: rest)))) =
                    some (x, ',' :: ' ' :: (dumpArr (y :: t2) ++ ']' :: rest)) := by
                  have := ih1 x [] (',' :: ' ' :: (dumpArr (y :: t2) ++ ']' :: rest))
                    hFx.1 wsOnly_nil (headFails_cons (by decide))
                  simpa only [hd, List.nil_append, List.cons_append] using this
                rw [hv]
                dsimp only
                rw [skipWs_cons_false (by decide)]
                dsimp only
                rw [if_pos rfl]
                have ht : parseArrElems F (' ' :: (dumpArr (y :: t2) ++ ']' :: rest)) =
                    some (y :: t2, rest) := by
                  have := ih2 (y :: t2) [' '] rest hFx.2 wsOnly_space
                  simpa only [List.cons_append, List.nil_append, List.append_assoc] using this
                rw [ht]
      · -- parseObjFields round trip
        intro fs w rest hF hw
        rw [parseObjFields.eq_def]
        dsimp only
        rw [List.append_assoc, skipWs_append _ hw]
        cases fs with
        | nil =>
            rw [show dumpObj [] = ([] : List Char) from rfl, List.nil_append,
              skipWs_cons_false (by decide)]
            dsimp only
            rw [if_pos rfl]
        | cons p t =>
            obtain ⟨k, v⟩ := p
            cases t with
            | nil =>
                have hFv : jweight v ≤ F := by
                  have h0 : 1 + jweightObj [(k, v)] ≤ F + 1 := hF
                  have h1 : jweightObj [(k, v)] = 1 + jweight v + 0 := rfl
                  omega
                rw [show dumpObj [(k, v)] = dumpStr k ++ ':' :: ' ' :: dumpVal v from rfl]
                dsimp only [dumpStr]
                simp only [List.cons_append, List.nil_append, List.append_assoc]
                rw [skipWs_cons_false (by decide)]
                dsimp only
                rw [if_neg (by decide), if_pos rfl, parseStrBody_escape]
                dsimp only
                rw [skipWs_cons_false (by decide)]
                dsimp only
                rw [if_pos rfl]
                have hv : parseVal F (' ' :: (dumpVal v ++ '\x7d' :: rest)) =
                    some (v, '\x7d' :: rest) := by
                  have := ih1 v [' '] ('\x7d' :: rest) hFv wsOnly_space
                    (headFails_cons (by decide))
                  simpa only [List.cons_append, List.nil_append, List.append_assoc] using this
                rw [hv]
                dsimp only
                rw [skipWs_cons_false (by decide)]
                dsimp only
                rw [if_neg (by decide), if_pos rfl]
            | cons q t2 =>
                have hFv : jweight v ≤ F ∧ 1 + jweightObj (q :: t2) ≤ F := by
                  have h0 : 1 + jweightObj ((k, v) :: q :: t2) ≤ F + 1 := hF
                  have h1 : jweightObj ((k, v) :: q :: t2) =
                      1 + jweight v + jweightObj (q :: t2) := rfl
                  have := jweight_pos v
                  omega
                rw [show dumpObj ((k, v) :: q :: t2) =
                  dumpStr k ++ ':' :: ' ' :: dumpVal v ++ ',' :: ' ' :: dumpObj (q :: t2)
                  from rfl]
                dsimp only [dumpStr]
                simp only [List.cons_append, List.nil_append, List.append_assoc]
                rw [skipWs_cons_false (by decide)]
                dsimp only
                rw [if_neg (by decide), if_pos rfl, parseStrBody_escape]
                dsimp only
                rw [skipWs_cons_false (by decide)]
                dsimp only
                rw [if_pos rfl]
                have hv : parseVal F (' ' :: (dumpVal v ++ ',' :: ' ' ::
                    (dumpObj (q :: t2) ++ '\x7d' :: rest))) =
                    some (v, ',' :: ' ' :: (dumpObj (q :: t2) ++ '\x7d' :: rest)) := by
                  have := ih1 v [' '] (',' :: ' ' :: (dumpObj (q :: t2) ++ '\x7d' :: rest))
                    hFv.1 wsOnly_space (headFails_cons (by decide))
                  simpa only [List.cons_append, List.nil_append, List.append_assoc] using this
                rw [hv]
                dsimp only
                rw [skipWs_cons_false (by decide)]
                dsimp only
                rw [if_pos rfl]
                have ht : parseObjFields F (' ' :: (dumpObj (q :: t2) ++ '\x7d' :: rest)) =
                    some (q :: t2, rest) := by
                  have := ih3 (q :: t2) [' '] rest hFv.2 wsOnly_space
                  simpa only [List.cons_append, List.nil_append, List.append_assoc] using this
                rw [ht]

mutual

theorem jweight_le_dump : (v : JVal) → jweight v ≤ 3 * (dumpVal v).length
  | .jnull => by simp [jweight, dumpVal]
  | .jbool b => by cases b <;> simp [jweight, dumpVal]
  | .jnum n => by
      obtain ⟨c, cs, hd, _, _, _⟩ := dumpVal_head (.jnum n)
      rw [hd]
      simp [jweight]
      omega
  | .jstr s => by simp [jweight, dumpVal, dumpStr]; omega
  | .jarr xs => by
      have h := jweightArr_le_dump xs
      simp [jweight, dumpVal]
      omega
  | .jobj fs => by
      have h := jweightObj_le_dump fs
      simp [jweight, dumpVal]
      omega

theorem jweightArr_le_dump : (xs : List JVal) → jweightArr xs ≤ 3 * (dumpArr xs).length + 1
  | [] => by simp [jweightArr, dumpArr]
  | [x] => by
      have h := jweight_le_dump x
      simp [jweightArr, dumpArr]
      omega
  | x :: y :: t => by
      have h1 := jweight_le_dump x
      have h2 := jweightArr_le_dump (y :: t)
      simp [jweightArr, dumpArr] at *
      omega

theorem jweightObj_le_dump : (fs : List (List Char × JVal)) →
    jweightObj fs ≤ 3 * (dumpObj fs).length + 1
  | [] => by simp [jweightObj, dumpObj]
  | [(k, v)] => by
      have h := jweight_le_dump v
      simp [jweightObj, dumpObj]
      omega
  | (k, v) :: q :: t => by
      have h1 := jweight_le_dump v
      have h2 := jweightObj_le_dump (q :: t)
      simp [jweightObj, dumpObj] at *
      omega

end

theorem ws_not_digit {c : Char} (h : isWsChar c = true) : c.isDigit = false := by
  simp only [isWsChar, Bool.or_eq_true, decide_eq_true_eq] at h
  rcases h with ((rfl | rfl) | rfl) | rfl <;> decide

theorem skipWs_nil_of_ws {l : List Char} (h : wsOnly l) : skipWs l = [] := by
  induction l with
  | nil => rfl
  | cons c t ih =>
      have hc := h c (by simp)
      have ht : wsOnly t := fun x hx => h x (by simp [hx])
      have h2 := ih ht
      simp only [skipWs, List.dropWhile_cons, hc, if_true]
      exact h2

/-!
## Metadata store (volume_kv.py)

The store keeps one JSON side-car file per volume. The file itself is
modelled as a `FileState`; filesystem failures (missing file, read
error) are the states in which Python `open`/`read` raise.
-/

/-- `KV_ALIGN` (volume_kv.py line 28). -/
def KV_ALIGN : Nat := 4096

/-- `align_str` (volume_kv.py, lines 157-161): left-justify the string
to one byte less than the next block boundary and append a newline
(`aligned_len = int((len(kv_str) + block - 1) / block) * block - 1`,
then `'{:<{width}}\n'.format(kv_str, width=aligned_len)`). -/
def align_str (s : List Char) (block : Nat) : List Char :=
  (if s.length < (s.length + block - 1) / block * block - 1 then
    s ++ List.replicate ((s.length + block - 1) / block * block - 1 - s.length) ' '
  else s) ++ ['\n']

/-- State of a volume's metadata side-car file. -/
inductive FileState where
  | missing : FileState
  | unreadable : FileState
  | content : List Char → FileState

/-- `load` (volume_kv.py, lines 165-179): `open`/`read` failure or a
JSON decode error each return `None`; otherwise the decoded value. -/
def load : FileState → Option JVal
  | .missing => none
  | .unreadable => none
  | .content s => jsonLoads s

/-- `save` (volume_kv.py, lines 183-195): writes
`align_str(json.dumps(vol_meta), KV_ALIGN)` to the side-car
(successful write modelled; a write failure would return False and
leave no new content). -/
def save (vol_meta : List (List Char × JVal)) : FileState :=
  .content (align_str (dumpVal (.jobj vol_meta)) KV_ALIGN)

theorem align_str_decomp (s : List Char) (block : Nat) :
    ∃ pad, align_str s block = s ++ pad ∧ wsOnly pad ∧ pad ≠ [] := by
  unfold align_str
  split
  · refine ⟨List.replicate ((s.length + block - 1) / block * block - 1 - s.length) ' ' ++ ['\n'],
      by simp, ?_, by simp⟩
    intro c hc
    rcases List.mem_append.mp hc with h | h
    · rw [List.eq_of_mem_replicate h]
      decide
    · simp at h
      subst h
      decide
  · refine ⟨['\n'], rfl, ?_, by simp⟩
    intro c hc
    simp at hc
    subst hc
    decide

/-- C8: saving a volume record (a JSON-serializable mapping) to the
metadata store and then loading it yields the very mapping saved; the
block-size padding added by `align_str` is whitespace that the JSON
decoder ignores. -/
theorem C8_kv_save_load_roundtrip :
    ∀ vol_meta : List (List Char × JVal), load (save vol_meta) = some (.jobj vol_meta) := by
  intro m
  show jsonLoads (align_str (dumpVal (.jobj m)) KV_ALIGN) = some (.jobj m)
  obtain ⟨pad, hpad, hws, hne⟩ := align_str_decomp (dumpVal (.jobj m)) KV_ALIGN
  rw [hpad]
  unfold jsonLoads
  have hhf : headFails Char.isDigit pad := by
    cases pad with
    | nil => trivial
    | cons c t => exact headFails_cons (ws_not_digit (hws c (by simp)))
  have hF : jweight (.jobj m) ≤ 3 * (dumpVal (.jobj m) ++ pad).length + 3 := by
    have h := jweight_le_dump (.jobj m)
    simp [List.length_append]
    omega
  have hparse := (parse_dump_all (3 * (dumpVal (.jobj m) ++ pad).length + 3)).1
    (.jobj m) [] pad hF wsOnly_nil hhf
  rw [List.nil_append] at hparse
  rw [hparse]
  dsimp only
  rw [skipWs_nil_of_ws hws]
  rfl

/-!
## Metadata dictionary operations

Python dict operations on the volume metadata, as association lists
with insertion-order semantics (assignment to an existing key updates
in place; `del` removes; `in` tests membership).
-/

/-- Key constants from volume_kv.py. -/
def STATUS : List Char := "status".toList

def CREATED : List Char := "created".toList

def CREATED_BY : List Char := "created-by".toList

def ATTACHED_VM_NAME : List Char := "attachedVMName".toList

def ATTACHED_VM_UUID : List Char := "attachedVMUuid".toList

def VOL_OPTS : List Char := "volOpts".toList

def ATTACHED : List Char := "attached".toList

def DETACHED : List Char := "detached".toList

/-- Dict lookup: first binding of the key. -/
def dget : List (List Char × JVal) → List Char → Option JVal
  | [], _ => none
  | (k, v) :: t, key => if k = key then some v else dget t key

/-- Dict assignment: update in place, else append. -/
def dset : List (List Char × JVal) → List Char → JVal → List (List Char × JVal)
  | [], key, val => [(key, val)]
  | (k, v) :: t, key, val =>
      if k = key then (k, val) :: t else (k, v) :: dset t key val

/-- Dict `del`: `none` models the `KeyError` raised on a missing key.
Python dicts hold a key at most once, so removal is modelled as
dropping every binding of the key. -/
def ddel (m : List (List Char × JVal)) (key : List Char) :
    Option (List (List Char × JVal)) :=
  if (dget m key).isSome then some (m.filter (fun p => !(p.1 = key))) else none

/-- Python `==` between a dict value and a string literal (false for
non-string values). -/
def jvalEqStr : JVal → List Char → Bool
  | .jstr t, s => t = s
  | _, _ => false

/-- `getStatusAttached` (vmdk_ops.py, lines 570-581): `(False, None)`
when the metadata is absent, empty, or lacks a status key; otherwise
whether the status equals "attached", plus the attached-VM uuid when
present. -/
def getStatusAttached (vol_meta : Option (List (List Char × JVal))) : Bool × Option JVal :=
  match vol_meta with
  | none => (false, none)
  | some m =>
      if m.isEmpty then (false, none)
      else match dget m STATUS with
        | none => (false, none)
        | some v => (jvalEqStr v ATTACHED, dget m ATTACHED_VM_UUID)

/-- C10: when the metadata side-car is missing, unreadable, or not
valid JSON, `load` returns an absent value instead of raising, and
`getStatusAttached` on an absent record reports (not attached, no
owner UUID) — exactly what it reports for a detached volume. -/
theorem C10_absent_metadata_reads_detached :
    load .missing = none ∧ load .unreadable = none ∧
    (∀ s, jsonLoads s = none → load (.content s) = none) ∧
    getStatusAttached none = (false, none) := by
  refine ⟨rfl, rfl, fun s h => h, rfl⟩

/-- C10 witness: a concrete volume whose side-car holds non-JSON text. -/
theorem C10_witness :
    load (.content "oops".toList) = none ∧ getStatusAttached none = (false, none) :=
  ⟨C10_absent_metadata_reads_detached.2.2.1 "oops".toList rfl,
   C10_absent_metadata_reads_detached.2.2.2⟩

/-!
## Service loop (handleVmciRequests, vmdk_ops.py lines 769-843)

The VMCI transport is the external collaborator; one loop iteration is
driven by the event the transport delivers: a non-privileged-client
rejection (ECONNABORTED), a receive failure (VMCI_ERROR), or a request
buffer. The loop keeps a retry budget `skip_count`.
-/

/-- `MAX_SKIP_COUNT` (vmdk_ops.py line 93). -/
def MAX_SKIP_COUNT : Nat := 16

/-- One event delivered by the VMCI transport. -/
inductive VmciEvent where
  | connAborted : VmciEvent
  | recvError : VmciEvent
  | request : List Char → VmciEvent

/-- What one loop iteration does besides updating the retry budget. -/
inductive LoopAction where
  | skipped : LoopAction
  | errorReply : JVal → LoopAction
  | dispatched : JVal → LoopAction

/-- Outcome of one loop iteration. -/
inductive LoopOut where
  | fatal : LoopOut
  | next : Nat → LoopAction → LoopOut

/-- The `{Error: "Failed to parse json '...'."}` reply built for a
buffer that fails JSON decoding (the transport buffer is spliced into
the message). -/
def parseFailReply (buf : List Char) : JVal :=
  .jobj [("Error".toList,
    .jstr ("Failed to parse json ".toList ++ [qch] ++ buf ++ [qch] ++ ".".toList))]

/-- One iteration of `handleVmciRequests`: ECONNABORTED continues with
the budget untouched; VMCI_ERROR decrements `skip_count` and raises a
fatal exception once it reaches zero; a received buffer resets the
budget to `MAX_SKIP_COUNT`, replies with a structured error if the
buffer is not valid JSON, and otherwise hands the decoded request to
the dispatcher. -/
def vmciLoopStep (skip_count : Nat) : VmciEvent → LoopOut
  | .connAborted => .next skip_count .skipped
  | .recvError =>
      if skip_count - 1 = 0 then .fatal
      else .next (skip_count - 1) .skipped
  | .request buf =>
      match jsonLoads buf with
      | none => .next MAX_SKIP_COUNT (.errorReply (parseFailReply buf))
      | some req => .next MAX_SKIP_COUNT (.dispatched req)

/-- Run the loop over a list of transport events; `none` means the
loop raised its fatal too-many-errors exception. -/
def runLoop : Nat → List VmciEvent → Option Nat
  | skip, [] => some skip
  | skip, ev :: evs =>
      match vmciLoopStep skip ev with
      | .fatal => none
      | .next k _ => runLoop k evs

/-- C9: starting from a full budget of 16, up to 15 consecutive
receive failures leave the loop alive (each decrementing the budget),
the 16th consecutive failure exhausts the budget and the loop raises a
fatal error; any received request resets the budget to 16, and a
buffer that is not valid JSON produces a structured Error reply while
the loop continues. -/
theorem C9_loop_retry_budget :
    (∀ k, k < MAX_SKIP_COUNT →
      runLoop MAX_SKIP_COUNT (List.replicate k .recvError) = some (MAX_SKIP_COUNT - k)) ∧
    runLoop MAX_SKIP_COUNT (List.replicate MAX_SKIP_COUNT .recvError) = none ∧
    (∀ skip buf, jsonLoads buf = none →
      vmciLoopStep skip (.request buf) = .next MAX_SKIP_COUNT (.errorReply (parseFailReply buf))) ∧
    (∀ skip buf v, jsonLoads buf = some v →
      vmciLoopStep skip (.request buf) = .next MAX_SKIP_COUNT (.dispatched v)) := by
  refine ⟨by decide, by decide, ?_, ?_⟩
  · intro skip buf h
    simp [vmciLoopStep, h]
  · intro skip buf v h
    simp [vmciLoopStep, h]

/-- C9 witness: three failures leave the budget at 13; a concrete
non-JSON buffer gets a structured error reply with the budget reset. -/
theorem C9_witness :
    runLoop MAX_SKIP_COUNT (List.replicate 3 .recvError) = some 13 ∧
    vmciLoopStep 5 (.request "notjson".toList) =
      .next MAX_SKIP_COUNT (.errorReply (parseFailReply "notjson".toList)) :=
  ⟨C9_loop_retry_budget.1 3 (by decide),
   C9_loop_retry_budget.2.2.1 5 "notjson".toList rfl⟩

/-!
## VM device model and attach/detach (vmdk_ops.py)

A VM hardware snapshot is a list of devices: SCSI controllers and
virtual disks. `findDeviceByPath` compares each disk's backing
fileName (datastore-relative, links resolved) against the target
volume's canonical path; disks carry that resolved match key as
`backing`. The hypervisor reconfiguration collaborator is modelled as
succeeding and applying the issued device change; a disk added for
`vmdk_path` is registered by the hypervisor with a backing fileName
that resolves to the volume's canonical path `target`.
-/

/-- A virtual SCSI controller (`vim.VirtualSCSIController`); `pvscsi`
marks `type(d) == vim.ParaVirtualSCSIController`. -/
structure SCSICtrl where
  key : Int
  busNumber : Int
  pvscsi : Bool
deriving DecidableEq

/-- A virtual disk (`vim.VirtualDisk`) with its controller key, unit
number and resolved backing path. -/
structure VDisk where
  controllerKey : Int
  unitNumber : Int
  backing : List Char
deriving DecidableEq

/-- One VM hardware device. -/
inductive VDevice where
  | ctrl : SCSICtrl → VDevice
  | disk : VDisk → VDevice
deriving DecidableEq

/-- `[d for d in devices if isinstance(d, vim.VirtualSCSIController)]`. -/
def scsiCtrls (devs : List VDevice) : List SCSICtrl :=
  devs.filterMap fun d => match d with
    | .ctrl c => some c
    | .disk _ => none

/-- `[dev for dev in devices if type(dev) == vim.VirtualDisk]`. -/
def vdisks (devs : List VDevice) : List VDisk :=
  devs.filterMap fun d => match d with
    | .ctrl _ => none
    | .disk dk => some dk

/-- `findDeviceByPath` (vmdk_ops.py, lines 511-531): the first virtual
disk whose resolved backing fileName equals the target path. -/
def findDeviceByPath (target : List Char) : List VDevice → Option VDisk
  | [] => none
  | .ctrl _ :: t => findDeviceByPath target t
  | .disk d :: t => if d.backing = target then some d else findDeviceByPath target t

/-- `setStatusAttached` (vmdk_ops.py, lines 539-551): start from the
loaded metadata (or an empty dict), set status/attachedVMUuid/
attachedVMName (the kv save is modelled as succeeding; on failure the
code only logs a warning). -/
def setStatusAttached (vol_meta : Option (List (List Char × JVal)))
    (uuid name : List Char) : Option (List (List Char × JVal)) :=
  some (dset (dset (dset (vol_meta.getD []) STATUS (.jstr ATTACHED))
    ATTACHED_VM_UUID (.jstr uuid)) ATTACHED_VM_NAME (.jstr name))

/-- `setStatusDetached` (vmdk_ops.py, lines 553-567): set
status=detached, then `try: del uuid; del name except: pass` — if the
uuid key is missing the `del` raises and the name key is not touched. -/
def setStatusDetached (vol_meta : Option (List (List Char × JVal))) :
    Option (List (List Char × JVal)) :=
  some (
    match ddel (dset (vol_meta.getD []) STATUS (.jstr DETACHED)) ATTACHED_VM_UUID with
    | none => dset (vol_meta.getD []) STATUS (.jstr DETACHED)
    | some m2 =>
        match ddel m2 ATTACHED_VM_NAME with
        | none => m2
        | some m3 => m3)

/-- A device-change request issued through `ReconfigVM_Task`. -/
inductive DevChange where
  | addCtrl : Int → Int → DevChange
  | addDisk : Int → Int → List Char → DevChange
  | removeDisk : VDisk → DevChange
deriving DecidableEq

/-- Result of `disk_attach`: `busInfo(unit, bus)` (a dict of the two
numbers as strings) or `err(msg)`; `pyError` marks the unreachable
`set.pop` on an empty set, a `KeyError` in Python. -/
inductive OpResult where
  | ok : Int → Int → OpResult
  | errRes : List Char → OpResult
  | pyError : OpResult
deriving DecidableEq

/-- Full outcome of an attach: returned value, device changes issued,
resulting VM hardware, resulting metadata. -/
structure AttachOut where
  res : OpResult
  changes : List DevChange
  devs : List VDevice
  meta : Option (List (List Char × JVal))

/-- `offset_from_bus_number` (vmdk_ops.py line 597). -/
def offset_from_bus_number : Int := 1000

/-- `max_scsi_controllers` (vmdk_ops.py line 598). -/
def max_scsi_controllers : Nat := 4

/-- Unit numbers taken on a controller:
`set(dev.unitNumber for dev in devices if type(dev) == VirtualDisk and
dev.controllerKey == controller_key)`. -/
def unitsTaken (devs : List VDevice) (controller_key : Int) : List Int :=
  ((vdisks devs).filter (fun d => d.controllerKey = controller_key)).map
    (fun d => d.unitNumber)

/-- The free unit set `(set(range(0, 7)) | set(range(8, 16))) - taken`
(vmdk_ops.py line 669), listed in the iteration order of the union set:
ascending, because the union ends up (after CPython's growth resizes) in
a 32-slot hash table with every value `v` alone at its home slot
`hash(v) = v`, and iteration walks the slots upward. The difference
inserts the surviving values, in this ascending order, into a fresh set;
`set.pop` on that fresh set is modelled by `setPop` below — it is NOT
the minimum of this list in general. -/
def availUnitSlots (devs : List VDevice) (controller_key : Int) : List Int :=
  (((List.range 16).map Int.ofNat).filter
    (fun u => u ≠ 7 && !((unitsTaken devs controller_key).contains u)))

/-- CPython 3.5 `set_add_entry`, specialised to the sets built here: an
open-addressing insert into a table of `t.length` slots. The first probe
is the home slot `hash & mask = v % size`; on a collision the scan moves
to `(i*5 + 1 + perturb) & mask`, where `perturb` starts at the hash and
is shifted right by 5 before each use — every value here is at most 15,
so every `perturb` term is 0 and the recurrence is `i -> (5*i + 1) %
size`. For an 8-slot table this recurrence cycles through all 8 slots,
so `size` probes always find a free slot when one exists; the
`LINEAR_PROBES` scan inside `set_add_entry` is skipped for an 8-slot
table (`i + 9 <= mask` never holds with `mask = 7`) and is never reached
for the 32-slot tables built here because their inserts never collide.
No deletions happen while a set is built, so there are no dummy
entries. -/
def probeIns : Nat → Nat → Int → List (Option Int) → List (Option Int)
  | 0, _, _, t => t
  | fuel + 1, i, v, t =>
      if t[i]? = some none then t.set i (some v)
      else probeIns fuel ((5 * i + 1) % t.length) v t

/-- One CPython set insert: probe from the value's home slot. -/
def tableInsert (t : List (Option Int)) (v : Int) : List (Option Int) :=
  probeIns t.length (v.toNat % t.length) v t

/-- The hash table of a CPython set after inserting `vs` in order into
`size` empty slots. -/
def buildTable (size : Nat) (vs : List Int) : List (Option Int) :=
  vs.foldl tableInsert (List.replicate size none)

/-- `set.pop` scans the table upward from slot `finger & mask`; a
freshly built set has `finger = 0`, so pop returns the element in the
lowest occupied slot. -/
def lowestSlot : List (Option Int) → Option Int
  | [] => none
  | none :: t => lowestSlot t
  | some v :: _ => some v

/-- CPython `set.pop()` on a fresh set built by inserting the distinct
values `vs` (each in 0..15) in order. `set_add_entry` grows the table
when the fill reaches two thirds (`fill*3 >= (mask+1)*2`): a fresh table
has 8 slots, so with at most 5 values no resize happens, while with 6 or
more the sixth insert resizes to `used*4 = 24` rounded up to the next
power of two, 32 slots, where the rebuild and all later inserts put
every value at its distinct home slot, so the final table is
`buildTable 32 vs` (at most 15 values, so no further resize). Pop
returns the element in the lowest occupied slot — the minimum of `vs`
only when every value sits at its home slot, which fails in the 8-slot
table for values 8-15 (e.g. inserting 6 then 8 puts 8 at slot 0, so pop
returns 8, not 6). -/
def setPop (vs : List Int) : Option Int :=
  if vs.length ≤ 5 then lowestSlot (buildTable 8 vs)
  else lowestSlot (buildTable 32 vs)

/-- `set(range(0, max_scsi_controllers)) - set(c.busNumber for c in
controllers)` (vmdk_ops.py line 628), ascending. Here `pop` does return
the head: every bus number lies in [0,4), so in the fresh 8-slot
difference table each survivor sits at its distinct home slot
`hash(b) = b` with no collisions (and at most 4 values, no resize), and
`pop` scans from slot 0 and returns the smallest. -/
def availBusSlots (controllers : List SCSICtrl) : List Int :=
  (((List.range max_scsi_controllers).map Int.ofNat).filter
    (fun b => !((controllers.map (fun c => c.busNumber)).contains b)))

/-- The tail of `disk_attach` from the already-attached check on
(vmdk_ops.py, lines 652-713): `devsOrig` is the `devices` local (the
snapshot taken at entry, used for the unit-slot scan), `devsNow` the
current hardware (it includes a controller the code just added),
`changes` the reconfigurations issued so far. The source checks
`if len(availSlots) == 0` and then takes `disk_slot = availSlots.pop()`
(modelled by `setPop`; the pop of a nonempty set cannot fail, so the
`none` arm is the unreachable `KeyError`). -/
def disk_attach_placed (vmdk_path target uuid name : List Char)
    (devsOrig devsNow : List VDevice) (meta : Option (List (List Char × JVal)))
    (controller_key bus_number : Int) (changes : List DevChange) : AttachOut :=
  match findDeviceByPath target devsNow with
  | some device =>
      { res := .ok device.unitNumber (device.controllerKey - offset_from_bus_number),
        changes := changes, devs := devsNow,
        meta := setStatusAttached meta uuid name }
  | none =>
      if (availUnitSlots devsOrig controller_key).length = 0 then
        { res := .errRes "Failed to place new disk - out of disk slots".toList,
          changes := changes, devs := devsNow, meta := meta }
      else
        match setPop (availUnitSlots devsOrig controller_key) with
        | none => { res := .pyError, changes := changes, devs := devsNow, meta := meta }
        | some disk_slot =>
            { res := .ok disk_slot bus_number,
              changes := changes ++ [.addDisk controller_key disk_slot vmdk_path],
              devs := devsNow ++ [.disk ⟨controller_key, disk_slot, target⟩],
              meta := setStatusAttached meta uuid name }

/-- `disk_attach` (vmdk_ops.py, lines 584-713). Prefer an existing
ParaVirtual SCSI controller; otherwise add one on the lowest free bus
(failing with a capacity error when 4 SCSI controllers exist), then
return the placement of an already-attached disk or place the disk on
the unit slot popped from the free-slot set. -/
def disk_attach (vmdk_path target uuid name : List Char)
    (devs : List VDevice) (meta : Option (List (List Char × JVal))) : AttachOut :=
  match (scsiCtrls devs).filter (fun c => c.pvscsi) with
  | c :: _ =>
      disk_attach_placed vmdk_path target uuid name devs devs meta c.key c.busNumber []
  | [] =>
      if max_scsi_controllers ≤ (scsiCtrls devs).length then
        { res := .errRes "Failed to place PVSCI adapter - out of bus slots".toList,
          changes := [], devs := devs, meta := meta }
      else
        match availBusSlots (scsiCtrls devs) with
        | [] => { res := .pyError, changes := [], devs := devs, meta := meta }
        | key :: _ =>
            disk_attach_placed vmdk_path target uuid name devs
              (devs ++ [.ctrl ⟨key + offset_from_bus_number, key, true⟩]) meta
              (key + offset_from_bus_number) key
              [.addCtrl (key + offset_from_bus_number) key]

/-- Outcome of `disk_detach`. -/
structure DetachOut where
  err : Option (List Char)
  changes : List DevChange
  devs : List VDevice
  meta : Option (List (List Char × JVal))

/-- `disk_detach` (vmdk_ops.py, lines 720-752): no device bound to the
volume → error, nothing touched; otherwise issue the removal (modelled
as succeeding) and write status=detached. -/
def disk_detach (vmdk_path target vmUuid : List Char)
    (devs : List VDevice) (meta : Option (List (List Char × JVal))) : DetachOut :=
  match findDeviceByPath target devs with
  | none =>
      { err := some ("*** Detach failed: disk=".toList ++ vmdk_path ++
          " not found. VM=".toList ++ vmUuid),
        changes := [], devs := devs, meta := meta }
  | some device =>
      { err := none,
        changes := [.removeDisk device],
        devs := devs.erase (.disk device),
        meta := setStatusDetached meta }

theorem dget_dset_self (m : List (List Char × JVal)) (k : List Char) (v : JVal) :
    dget (dset m k v) k = some v := by
  induction m with
  | nil => simp [dset, dget]
  | cons p t ih =>
      obtain ⟨k0, v0⟩ := p
      by_cases h : k0 = k
      · simp [dset, dget, h]
      · simp [dset, dget, h, ih]

theorem dget_dset_ne (m : List (List Char × JVal)) (k : List Char) (v : JVal)
    (k' : List Char) (h : k' ≠ k) : dget (dset m k v) k' = dget m k' := by
  induction m with
  | nil => simp [dset, dget, Ne.symm h]
  | cons p t ih =>
      obtain ⟨k0, v0⟩ := p
      by_cases h0 : k0 = k
      · subst h0
        simp [dset, dget, Ne.symm h]
      · by_cases h1 : k0 = k'
        · subst h1
          simp [dset, dget, h0]
        · simp [dset, dget, h0, h1, ih]

theorem dset_id (m : List (List Char × JVal)) (k : List Char) (v : JVal)
    (h : dget m k = some v) : dset m k v = m := by
  induction m with
  | nil => simp [dget] at h
  | cons p t ih =>
      obtain ⟨k0, v0⟩ := p
      by_cases h0 : k0 = k
      · rw [dget, if_pos h0] at h
        obtain rfl : v0 = v := by simpa using h
        simp [dset, h0]
      · rw [dget, if_neg h0] at h
        simp [dset, h0, ih h]

theorem dget_filter_self (m : List (List Char × JVal)) (k : List Char) :
    dget (m.filter (fun p => !(p.1 = k))) k = none := by
  induction m with
  | nil => rfl
  | cons p t ih =>
      obtain ⟨k0, v0⟩ := p
      by_cases h : k0 = k
      · subst h
        simp [List.filter_cons, ih]
      · simp [List.filter_cons, h, dget, ih]

theorem dget_filter_ne (m : List (List Char × JVal)) (k k' : List Char)
    (h : k' ≠ k) : dget (m.filter (fun p => !(p.1 = k))) k' = dget m k' := by
  induction m with
  | nil => rfl
  | cons p t ih =>
      obtain ⟨k0, v0⟩ := p
      by_cases h0 : k0 = k
      · subst h0
        simp [List.filter_cons, dget, Ne.symm h, ih]
      · by_cases h1 : k0 = k'
        · subst h1
          simp [List.filter_cons, dget, h0]
        · simp [List.filter_cons, dget, h0, h1, ih]

theorem setStatusDetached_clears (meta : Option (List (List Char × JVal)))
    (hp : (dget (meta.getD []) ATTACHED_VM_UUID).isSome ↔
      (dget (meta.getD []) ATTACHED_VM_NAME).isSome) :
    ∃ m', setStatusDetached meta = some m' ∧
      dget m' STATUS = some (.jstr DETACHED) ∧
      dget m' ATTACHED_VM_UUID = none ∧ dget m' ATTACHED_VM_NAME = none := by
  unfold setStatusDetached
  have hus : ATTACHED_VM_UUID ≠ STATUS := by decide
  have hns : ATTACHED_VM_NAME ≠ STATUS := by decide
  have hnu : ATTACHED_VM_NAME ≠ ATTACHED_VM_UUID := by decide
  have hsu : STATUS ≠ ATTACHED_VM_UUID := by decide
  have hsn : STATUS ≠ ATTACHED_VM_NAME := by decide
  have hun : ATTACHED_VM_UUID ≠ ATTACHED_VM_NAME := by decide
  cases hu : dget (meta.getD []) ATTACHED_VM_UUID with
  | none =>
      have h1 : dget (dset (meta.getD []) STATUS (.jstr DETACHED)) ATTACHED_VM_UUID = none := by
        rw [dget_dset_ne _ _ _ _ hus, hu]
      rw [show ddel (dset (meta.getD []) STATUS (.jstr DETACHED)) ATTACHED_VM_UUID = none
        from by simp [ddel, h1]]
      dsimp only
      refine ⟨_, rfl, dget_dset_self _ _ _, h1, ?_⟩
      rw [dget_dset_ne _ _ _ _ hns]
      have : ¬ (dget (meta.getD []) ATTACHED_VM_NAME).isSome := by
        rw [← hp, hu]
        simp
      simpa using this
  | some u =>
      have h1 : dget (dset (meta.getD []) STATUS (.jstr DETACHED)) ATTACHED_VM_UUID = some u := by
        rw [dget_dset_ne _ _ _ _ hus, hu]
      rw [show ddel (dset (meta.getD []) STATUS (.jstr DETACHED)) ATTACHED_VM_UUID =
        some ((dset (meta.getD []) STATUS (.jstr DETACHED)).filter
          (fun p => !(p.1 = ATTACHED_VM_UUID))) from by simp [ddel, h1]]
      dsimp only
      have hname : (dget (meta.getD []) ATTACHED_VM_NAME).isSome := by
        rw [← hp, hu]
        rfl
      obtain ⟨nv, hnv⟩ := Option.isSome_iff_exists.mp hname
      have h2 : dget ((dset (meta.getD []) STATUS (.jstr DETACHED)).filter
          (fun p => !(p.1 = ATTACHED_VM_UUID))) ATTACHED_VM_NAME = some nv := by
        rw [dget_filter_ne _ _ _ hnu, dget_dset_ne _ _ _ _ hns, hnv]
      rw [show ddel ((dset (meta.getD []) STATUS (.jstr DETACHED)).filter
          (fun p => !(p.1 = ATTACHED_VM_UUID))) ATTACHED_VM_NAME =
        some (((dset (meta.getD []) STATUS (.jstr DETACHED)).filter
          (fun p => !(p.1 = ATTACHED_VM_UUID))).filter (fun p => !(p.1 = ATTACHED_VM_NAME)))
        from by simp [ddel, h2]]
      dsimp only
      refine ⟨_, rfl, ?_, ?_, ?_⟩
      · rw [dget_filter_ne _ _ _ hsn, dget_filter_ne _ _ _ hsu, dget_dset_self]
      · rw [dget_filter_ne _ _ _ hun, dget_filter_self]
      · rw [dget_filter_self]

/-- C6: a detach that finds no disk bound to the volume's canonical
path fails and leaves the metadata untouched; a successful detach
writes status=detached and clears attachedVMUuid and attachedVMName
together (assuming the §3 invariant that the two identity fields are
present or absent as a pair). -/
theorem C6_detach_fails_or_clears_pair (vmdk_path target vmUuid : List Char)
    (devs : List VDevice) (meta : Option (List (List Char × JVal))) :
    (findDeviceByPath target devs = none →
      (disk_detach vmdk_path target vmUuid devs meta).err ≠ none ∧
      (disk_detach vmdk_path target vmUuid devs meta).meta = meta) ∧
    (∀ d, findDeviceByPath target devs = some d →
      ((dget (meta.getD []) ATTACHED_VM_UUID).isSome ↔
        (dget (meta.getD []) ATTACHED_VM_NAME).isSome) →
      (disk_detach vmdk_path target vmUuid devs meta).err = none ∧
      ∃ m', (disk_detach vmdk_path target vmUuid devs meta).meta = some m' ∧
        dget m' STATUS = some (.jstr DETACHED) ∧
        dget m' ATTACHED_VM_UUID = none ∧ dget m' ATTACHED_VM_NAME = none) := by
  constructor
  · intro h
    unfold disk_detach
    rw [h]
    exact ⟨by simp, rfl⟩
  · intro d h hp
    unfold disk_detach
    rw [h]
    exact ⟨rfl, setStatusDetached_clears meta hp⟩

/-- C6 witness: a detach with no matching device errors out leaving
metadata alone; a concrete attached volume detaches to status=detached
with both identity fields gone. -/
theorem C6_witness :
    ((disk_detach "p".toList "t".toList "u".toList [] none).err ≠ none ∧
      (disk_detach "p".toList "t".toList "u".toList [] none).meta = none) ∧
    ((disk_detach "p".toList "t".toList "u".toList
        [.disk ⟨1000, 0, "t".toList⟩]
        (some [(STATUS, .jstr ATTACHED), (ATTACHED_VM_UUID, .jstr "u".toList),
               (ATTACHED_VM_NAME, .jstr "n".toList)])).err = none ∧
      ∃ m', (disk_detach "p".toList "t".toList "u".toList
        [.disk ⟨1000, 0, "t".toList⟩]
        (some [(STATUS, .jstr ATTACHED), (ATTACHED_VM_UUID, .jstr "u".toList),
               (ATTACHED_VM_NAME, .jstr "n".toList)])).meta = some m' ∧
        dget m' STATUS = some (.jstr DETACHED) ∧
        dget m' ATTACHED_VM_UUID = none ∧ dget m' ATTACHED_VM_NAME = none) :=
  ⟨(C6_detach_fails_or_clears_pair "p".toList "t".toList "u".toList [] none).1 rfl,
   (C6_detach_fails_or_clears_pair "p".toList "t".toList "u".toList
      [.disk ⟨1000, 0, "t".toList⟩]
      (some [(STATUS, .jstr ATTACHED), (ATTACHED_VM_UUID, .jstr "u".toList),
             (ATTACHED_VM_NAME, .jstr "n".toList)])).2
     ⟨1000, 0, "t".toList⟩ rfl (by decide)⟩

theorem probeIns_length (fuel : Nat) : ∀ (i : Nat) (v : Int) (t : List (Option Int)),
    (probeIns fuel i v t).length = t.length := by
  induction fuel with
  | zero => intro i v t; rfl
  | succ f ih =>
      intro i v t
      simp only [probeIns]
      split
      · simp [List.length_set]
      · exact ih _ _ _

theorem probeIns_mem {fuel : Nat} : ∀ {i : Nat} {v : Int} {t : List (Option Int)}
    {x : Option Int}, x ∈ probeIns fuel i v t → x ∈ t ∨ x = some v := by
  induction fuel with
  | zero => intro i v t x h; exact Or.inl h
  | succ f ih =>
      intro i v t x h
      simp only [probeIns] at h
      split at h
      · exact List.mem_or_eq_of_mem_set h
      · exact ih h

theorem probeIns_preserve {fuel : Nat} : ∀ {i : Nat} {v : Int} {t : List (Option Int)}
    {k : Nat} {y : Int}, t[k]? = some (some y) →
    (probeIns fuel i v t)[k]? = some (some y) := by
  induction fuel with
  | zero => intro i v t k y hk; exact hk
  | succ f ih =>
      intro i v t k y hk
      simp only [probeIns]
      split
      · rename_i hti
        have hik : i ≠ k := by
          intro he
          rw [he, hk] at hti
          exact absurd hti (by simp)
        rw [List.getElem?_set_ne hik]
        exact hk
      · exact ih hk

theorem foldl_tableInsert_length (vs : List Int) : ∀ t : List (Option Int),
    (vs.foldl tableInsert t).length = t.length := by
  induction vs with
  | nil => intro t; rfl
  | cons v r ih =>
      intro t
      rw [List.foldl_cons, ih, tableInsert, probeIns_length]

theorem buildTable_length (size : Nat) (vs : List Int) :
    (buildTable size vs).length = size := by
  rw [buildTable, foldl_tableInsert_length, List.length_replicate]

theorem foldl_tableInsert_mem {vs : List Int} : ∀ {t : List (Option Int)} {x : Int},
    some x ∈ vs.foldl tableInsert t → some x ∈ t ∨ x ∈ vs := by
  induction vs with
  | nil => intro t x h; exact Or.inl h
  | cons v r ih =>
      intro t x h
      rw [List.foldl_cons] at h
      rcases ih h with h1 | h1
      · rcases probeIns_mem h1 with h2 | h2
        · exact Or.inl h2
        · injection h2 with h2
          subst h2
          exact Or.inr (List.mem_cons_self _ _)
      · exact Or.inr (List.mem_cons_of_mem _ h1)

theorem foldl_tableInsert_preserve {vs : List Int} : ∀ {t : List (Option Int)}
    {k : Nat} {y : Int}, t[k]? = some (some y) →
    (vs.foldl tableInsert t)[k]? = some (some y) := by
  induction vs with
  | nil => intro t k y hk; exact hk
  | cons v r ih =>
      intro t k y hk
      rw [List.foldl_cons]
      exact ih (probeIns_preserve hk)

theorem lowestSlot_mem : ∀ {t : List (Option Int)} {v : Int},
    lowestSlot t = some v → some v ∈ t := by
  intro t
  induction t with
  | nil => intro v h; exact absurd h (by simp [lowestSlot])
  | cons a r ih =>
      intro v h
      cases a with
      | none =>
          rw [lowestSlot] at h
          exact List.mem_cons_of_mem _ (ih h)
      | some w =>
          rw [lowestSlot] at h
          injection h with h
          subst h
          exact List.mem_cons_self _ _

theorem lowestSlot_isSome : ∀ {t : List (Option Int)} {k : Nat} {y : Int},
    t[k]? = some (some y) → ∃ v, lowestSlot t = some v := by
  intro t
  induction t with
  | nil => intro k y hk; exact absurd hk (by simp)
  | cons a r ih =>
      intro k y hk
      cases a with
      | some w => exact ⟨w, rfl⟩
      | none =>
          cases k with
          | zero => exact absurd hk (by simp)
          | succ k2 =>
              rw [List.getElem?_cons_succ] at hk
              obtain ⟨v, hv⟩ := ih hk
              exact ⟨v, hv⟩

theorem buildTable_mem {size : Nat} {vs : List Int} {v : Int}
    (h : some v ∈ buildTable size vs) : v ∈ vs := by
  rw [buildTable] at h
  rcases foldl_tableInsert_mem h with h1 | h1
  · exact absurd (List.eq_of_mem_replicate h1) (by simp)
  · exact h1

/-- The pop of a set is a member of it. -/
theorem setPop_mem {vs : List Int} {v : Int} (h : setPop vs = some v) : v ∈ vs := by
  rw [setPop] at h
  split at h
  · exact buildTable_mem (lowestSlot_mem h)
  · exact buildTable_mem (lowestSlot_mem h)

theorem buildTable_cons_isSome (size : Nat) (hsz : 0 < size) (v0 : Int)
    (rest : List Int) : ∃ s, lowestSlot (buildTable size (v0 :: rest)) = some s := by
  have h0 : (List.replicate size (none : Option Int))[v0.toNat % size]? = some none := by
    rw [List.getElem?_replicate, if_pos (Nat.mod_lt _ hsz)]
  have h1 : (tableInsert (List.replicate size none) v0)[v0.toNat % size]? =
      some (some v0) := by
    rw [tableInsert, List.length_replicate]
    obtain ⟨s1, hs1⟩ : ∃ s1, size = s1 + 1 := ⟨size - 1, by omega⟩
    rw [hs1] at h0 ⊢
    simp only [probeIns]
    rw [if_pos h0, List.getElem?_set_self]
    exact (List.getElem?_eq_some.mp h0).1
  rw [buildTable, List.foldl_cons]
  exact lowestSlot_isSome (foldl_tableInsert_preserve h1)

/-- The pop of a nonempty set succeeds. -/
theorem setPop_some {vs : List Int} (hne : vs ≠ []) : ∃ s, setPop vs = some s := by
  obtain ⟨v0, rest, rfl⟩ := List.exists_cons_of_ne_nil hne
  rw [setPop]
  split
  · exact buildTable_cons_isSome 8 (by norm_num) v0 rest
  · exact buildTable_cons_isSome 32 (by norm_num) v0 rest

theorem placed_found (p tgt u n : List Char) (devsOrig devsNow : List VDevice)
    (meta : Option (List (List Char × JVal))) (ck bn : Int) (chs : List DevChange)
    (d : VDisk) (h : findDeviceByPath tgt devsNow = some d) :
    disk_attach_placed p tgt u n devsOrig devsNow meta ck bn chs =
      ⟨.ok d.unitNumber (d.controllerKey - offset_from_bus_number), chs, devsNow,
        setStatusAttached meta u n⟩ := by
  unfold disk_attach_placed
  rw [h]

theorem placed_slot (p tgt u n : List Char) (devsOrig devsNow : List VDevice)
    (meta : Option (List (List Char × JVal))) (ck bn : Int) (chs : List DevChange)
    (s : Int) (hf : findDeviceByPath tgt devsNow = none)
    (hne : availUnitSlots devsOrig ck ≠ [])
    (hpop : setPop (availUnitSlots devsOrig ck) = some s) :
    disk_attach_placed p tgt u n devsOrig devsNow meta ck bn chs =
      ⟨.ok s bn, chs ++ [.addDisk ck s p], devsNow ++ [.disk ⟨ck, s, tgt⟩],
        setStatusAttached meta u n⟩ := by
  unfold disk_attach_placed
  rw [hf]
  dsimp only
  rw [if_neg (fun h => hne (List.length_eq_zero.mp h)), hpop]

theorem placed_full (p tgt u n : List Char) (devsOrig devsNow : List VDevice)
    (meta : Option (List (List Char × JVal))) (ck bn : Int) (chs : List DevChange)
    (hf : findDeviceByPath tgt devsNow = none)
    (ha : availUnitSlots devsOrig ck = []) :
    disk_attach_placed p tgt u n devsOrig devsNow meta ck bn chs =
      ⟨.errRes "Failed to place new disk - out of disk slots".toList, chs, devsNow, meta⟩ := by
  unfold disk_attach_placed
  rw [hf]
  dsimp only
  rw [if_pos (by rw [ha]; rfl)]

theorem attach_pv (p tgt u n : List Char) (devs : List VDevice)
    (meta : Option (List (List Char × JVal))) (c : SCSICtrl) (cr : List SCSICtrl)
    (hpv : (scsiCtrls devs).filter (fun x => x.pvscsi) = c :: cr) :
    disk_attach p tgt u n devs meta =
      disk_attach_placed p tgt u n devs devs meta c.key c.busNumber [] := by
  unfold disk_attach
  rw [hpv]

theorem attach_ctrlfull (p tgt u n : List Char) (devs : List VDevice)
    (meta : Option (List (List Char × JVal)))
    (hpv : (scsiCtrls devs).filter (fun x => x.pvscsi) = [])
    (hlen : max_scsi_controllers ≤ (scsiCtrls devs).length) :
    disk_attach p tgt u n devs meta =
      ⟨.errRes "Failed to place PVSCI adapter - out of bus slots".toList, [], devs, meta⟩ := by
  unfold disk_attach
  rw [hpv]
  dsimp only
  rw [if_pos hlen]

theorem attach_addctrl (p tgt u n : List Char) (devs : List VDevice)
    (meta : Option (List (List Char × JVal))) (b : Int) (br : List Int)
    (hpv : (scsiCtrls devs).filter (fun x => x.pvscsi) = [])
    (hlen : ¬ max_scsi_controllers ≤ (scsiCtrls devs).length)
    (hb : availBusSlots (scsiCtrls devs) = b :: br) :
    disk_attach p tgt u n devs meta =
      disk_attach_placed p tgt u n devs
        (devs ++ [.ctrl ⟨b + offset_from_bus_number, b, true⟩]) meta
        (b + offset_from_bus_number) b
        [.addCtrl (b + offset_from_bus_number) b] := by
  unfold disk_attach
  rw [hpv]
  dsimp only
  rw [if_neg hlen, hb]

theorem scsiCtrls_append_disk (l : List VDevice) (d : VDisk) :
    scsiCtrls (l ++ [.disk d]) = scsiCtrls l := by
  simp [scsiCtrls, List.filterMap_append]

theorem scsiCtrls_append_ctrl (l : List VDevice) (c : SCSICtrl) :
    scsiCtrls (l ++ [.ctrl c]) = scsiCtrls l ++ [c] := by
  simp [scsiCtrls, List.filterMap_append]

theorem find_append_none (tgt : List Char) (l l2 : List VDevice)
    (h : findDeviceByPath tgt l = none) :
    findDeviceByPath tgt (l ++ l2) = findDeviceByPath tgt l2 := by
  induction l with
  | nil => rfl
  | cons dv t ih =>
      cases dv with
      | ctrl c =>
          rw [findDeviceByPath] at h
          exact ih h
      | disk d =>
          rw [findDeviceByPath] at h
          rw [List.cons_append, findDeviceByPath]
          split at h
          · exact absurd h (by simp)
          · rw [if_neg (by assumption)]
            exact ih h

theorem find_disk_self (tgt : List Char) (k s : Int) :
    findDeviceByPath tgt [.disk ⟨k, s, tgt⟩] = some ⟨k, s, tgt⟩ := by
  simp [findDeviceByPath]

theorem getStatus_setAttached (meta : Option (List (List Char × JVal))) (u n : List Char) :
    getStatusAttached (setStatusAttached meta u n) = (true, some (.jstr u)) := by
  have hsn : STATUS ≠ ATTACHED_VM_NAME := by decide
  have hsu : STATUS ≠ ATTACHED_VM_UUID := by decide
  have hun : ATTACHED_VM_UUID ≠ ATTACHED_VM_NAME := by decide
  unfold setStatusAttached getStatusAttached
  have hst : dget (dset (dset (dset (meta.getD []) STATUS (.jstr ATTACHED))
      ATTACHED_VM_UUID (.jstr u)) ATTACHED_VM_NAME (.jstr n)) STATUS =
      some (.jstr ATTACHED) := by
    rw [dget_dset_ne _ _ _ _ hsn, dget_dset_ne _ _ _ _ hsu, dget_dset_self]
  have huu : dget (dset (dset (dset (meta.getD []) STATUS (.jstr ATTACHED))
      ATTACHED_VM_UUID (.jstr u)) ATTACHED_VM_NAME (.jstr n)) ATTACHED_VM_UUID =
      some (.jstr u) := by
    rw [dget_dset_ne _ _ _ _ hun, dget_dset_self]
  have hne : (dset (dset (dset (meta.getD []) STATUS (.jstr ATTACHED))
      ATTACHED_VM_UUID (.jstr u)) ATTACHED_VM_NAME (.jstr n)).isEmpty = false := by
    cases h : dset (dset (dset (meta.getD []) STATUS (.jstr ATTACHED))
      ATTACHED_VM_UUID (.jstr u)) ATTACHED_VM_NAME (.jstr n) with
    | nil =>
        rw [h] at hst
        exact absurd hst (by simp [dget])
    | cons a b => rfl
  dsimp only
  rw [hne]
  rw [if_neg (by decide : ¬ (false = true))]
  rw [hst]
  dsimp only
  rw [huu]
  simp [jvalEqStr]

theorem setAttached_idem (meta : Option (List (List Char × JVal))) (u n : List Char) :
    setStatusAttached (setStatusAttached meta u n) u n = setStatusAttached meta u n := by
  have hsn : STATUS ≠ ATTACHED_VM_NAME := by decide
  have hsu : STATUS ≠ ATTACHED_VM_UUID := by decide
  have hun : ATTACHED_VM_UUID ≠ ATTACHED_VM_NAME := by decide
  unfold setStatusAttached
  have h1 : dget (dset (dset (dset (meta.getD []) STATUS (.jstr ATTACHED))
      ATTACHED_VM_UUID (.jstr u)) ATTACHED_VM_NAME (.jstr n)) STATUS =
      some (.jstr ATTACHED) := by
    rw [dget_dset_ne _ _ _ _ hsn, dget_dset_ne _ _ _ _ hsu, dget_dset_self]
  have h2 : dget (dset (dset (dset (meta.getD []) STATUS (.jstr ATTACHED))
      ATTACHED_VM_UUID (.jstr u)) ATTACHED_VM_NAME (.jstr n)) ATTACHED_VM_UUID =
      some (.jstr u) := by
    rw [dget_dset_ne _ _ _ _ hun, dget_dset_self]
  have h3 : dget (dset (dset (dset (meta.getD []) STATUS (.jstr ATTACHED))
      ATTACHED_VM_UUID (.jstr u)) ATTACHED_VM_NAME (.jstr n)) ATTACHED_VM_NAME =
      some (.jstr n) := dget_dset_self _ _ _
  rw [Option.getD_some]
  rw [dset_id _ _ _ h1, dset_id _ _ _ h2, dset_id _ _ _ h3]

/-- C1 counterexample: a snapshot that already holds a disk backed by
the target volume but whose only SCSI controller is not ParaVirtual.
`disk_attach` adds a PVSCSI controller — a device-change
reconfiguration — before it runs the already-attached check, so the
claim's "issues no device-change reconfiguration request" is false
(the existing placement is still returned). -/
theorem C1_counterexample_reconfig_despite_attached :
    (∃ d ∈ vdisks [VDevice.ctrl ⟨1000, 0, false⟩,
        VDevice.disk ⟨1000, 0, "dockvols/v.vmdk".toList⟩],
      d.backing = "dockvols/v.vmdk".toList) ∧
    (disk_attach "p".toList "dockvols/v.vmdk".toList "u".toList "n".toList
        [VDevice.ctrl ⟨1000, 0, false⟩, VDevice.disk ⟨1000, 0, "dockvols/v.vmdk".toList⟩]
        none).changes ≠ [] ∧
    (disk_attach "p".toList "dockvols/v.vmdk".toList "u".toList "n".toList
        [VDevice.ctrl ⟨1000, 0, false⟩, VDevice.disk ⟨1000, 0, "dockvols/v.vmdk".toList⟩]
        none).changes = [.addCtrl 1001 1] := by
  refine ⟨by decide, by decide, by decide⟩

/-- C1 (amended): (1) when the snapshot already has a ParaVirtual SCSI
controller and holds a disk backed by the volume's canonical path,
attach returns that disk's placement (unit number, bus = controller key
minus 1000), issues no device change, and stamps the metadata
attached-to-caller; (2) under the vSphere controller-key invariant
(key = 1000 + bus), re-running a successful attach returns the same
(unit, bus), changes nothing, and leaves the metadata attached to the
same owner. -/
theorem C1_attach_existing_and_idempotent :
    (∀ p tgt u n devs meta c cr d,
      (scsiCtrls devs).filter (fun x => x.pvscsi) = c :: cr →
      findDeviceByPath tgt devs = some d →
      disk_attach p tgt u n devs meta =
        ⟨.ok d.unitNumber (d.controllerKey - offset_from_bus_number), [], devs,
          setStatusAttached meta u n⟩ ∧
      getStatusAttached (disk_attach p tgt u n devs meta).meta = (true, some (.jstr u))) ∧
    (∀ p tgt u n devs meta slot bus,
      (∀ c ∈ scsiCtrls devs, c.key = c.busNumber + offset_from_bus_number) →
      (disk_attach p tgt u n devs meta).res = .ok slot bus →
      disk_attach p tgt u n (disk_attach p tgt u n devs meta).devs
          (disk_attach p tgt u n devs meta).meta =
        ⟨.ok slot bus, [], (disk_attach p tgt u n devs meta).devs,
          (disk_attach p tgt u n devs meta).meta⟩ ∧
      getStatusAttached (disk_attach p tgt u n devs meta).meta = (true, some (.jstr u))) := by
  constructor
  · intro p tgt u n devs meta c cr d hpv hf
    have h1 : disk_attach p tgt u n devs meta =
        ⟨.ok d.unitNumber (d.controllerKey - offset_from_bus_number), [], devs,
          setStatusAttached meta u n⟩ := by
      rw [attach_pv p tgt u n devs meta c cr hpv,
        placed_found p tgt u n devs devs meta c.key c.busNumber [] d hf]
    refine ⟨h1, ?_⟩
    rw [h1]
    exact getStatus_setAttached meta u n
  · intro p tgt u n devs meta slot bus hwf hres
    cases hpv : (scsiCtrls devs).filter (fun x => x.pvscsi) with
    | cons c cr =>
        have hc_mem : c ∈ scsiCtrls devs := by
          apply List.mem_of_mem_filter (p := fun x => x.pvscsi)
          rw [hpv]
          exact List.mem_cons_self c cr
        have hkey : c.key = c.busNumber + offset_from_bus_number := hwf c hc_mem
        cases hf : findDeviceByPath tgt devs with
        | some d =>
            have h1 : disk_attach p tgt u n devs meta =
                ⟨.ok d.unitNumber (d.controllerKey - offset_from_bus_number), [], devs,
                  setStatusAttached meta u n⟩ := by
              rw [attach_pv p tgt u n devs meta c cr hpv,
                placed_found p tgt u n devs devs meta c.key c.busNumber [] d hf]
            rw [h1] at hres ⊢
            dsimp only at hres ⊢
            obtain ⟨h2, h3⟩ : d.unitNumber = slot ∧
                d.controllerKey - offset_from_bus_number = bus := by
              injection hres with a b
              exact ⟨a, b⟩
            subst h2
            subst h3
            refine ⟨?_, getStatus_setAttached meta u n⟩
            rw [attach_pv p tgt u n devs (setStatusAttached meta u n) c cr hpv,
              placed_found p tgt u n devs devs (setStatusAttached meta u n)
                c.key c.busNumber [] d hf, setAttached_idem]
        | none =>
            by_cases ha : availUnitSlots devs c.key = []
            · have h1 : disk_attach p tgt u n devs meta =
                    ⟨.errRes "Failed to place new disk - out of disk slots".toList,
                      [], devs, meta⟩ := by
                rw [attach_pv p tgt u n devs meta c cr hpv,
                  placed_full p tgt u n devs devs meta c.key c.busNumber [] hf ha]
              rw [h1] at hres
              dsimp only at hres
              exact absurd hres (by simp)
            · obtain ⟨s, hpop⟩ := setPop_some ha
              have h1 : disk_attach p tgt u n devs meta =
                    ⟨.ok s c.busNumber, [.addDisk c.key s p],
                      devs ++ [.disk ⟨c.key, s, tgt⟩], setStatusAttached meta u n⟩ := by
                  rw [attach_pv p tgt u n devs meta c cr hpv,
                    placed_slot p tgt u n devs devs meta c.key c.busNumber [] s hf ha hpop]
                  rfl
              rw [h1] at hres ⊢
              dsimp only at hres ⊢
              obtain ⟨h2, h3⟩ : s = slot ∧ c.busNumber = bus := by
                injection hres with a b
                exact ⟨a, b⟩
              subst h2
              subst h3
              refine ⟨?_, getStatus_setAttached meta u n⟩
              have hpv2 : (scsiCtrls (devs ++ [.disk ⟨c.key, s, tgt⟩])).filter
                  (fun x => x.pvscsi) = c :: cr := by
                rw [scsiCtrls_append_disk, hpv]
              have hf2 : findDeviceByPath tgt (devs ++ [.disk ⟨c.key, s, tgt⟩]) =
                  some ⟨c.key, s, tgt⟩ := by
                rw [find_append_none tgt devs _ hf, find_disk_self]
              rw [attach_pv p tgt u n _ _ c cr hpv2,
                placed_found p tgt u n _ _ (setStatusAttached meta u n)
                  c.key c.busNumber [] _ hf2, setAttached_idem]
              have hck : c.key - offset_from_bus_number = c.busNumber := by omega
              dsimp only
              rw [hck]
    | nil =>
        by_cases hlen : max_scsi_controllers ≤ (scsiCtrls devs).length
        · have h1 := attach_ctrlfull p tgt u n devs meta hpv hlen
          rw [h1] at hres
          dsimp only at hres
          exact absurd hres (by simp)
        · cases hb : availBusSlots (scsiCtrls devs) with
          | nil =>
              have h1 : disk_attach p tgt u n devs meta = ⟨.pyError, [], devs, meta⟩ := by
                unfold disk_attach
                rw [hpv]
                dsimp only
                rw [if_neg hlen, hb]
              rw [h1] at hres
              dsimp only at hres
              exact absurd hres (by simp)
          | cons b br =>
              have h1 := attach_addctrl p tgt u n devs meta b br hpv hlen hb
              have hpv2 : (scsiCtrls (devs ++
                  [.ctrl ⟨b + offset_from_bus_number, b, true⟩])).filter
                  (fun x => x.pvscsi) =
                  (⟨b + offset_from_bus_number, b, true⟩ : SCSICtrl) :: [] := by
                rw [scsiCtrls_append_ctrl, List.filter_append, hpv]
                rfl
              cases hf : findDeviceByPath tgt
                  (devs ++ [.ctrl ⟨b + offset_from_bus_number, b, true⟩]) with
              | some d =>
                  have h2 : disk_attach p tgt u n devs meta =
                      ⟨.ok d.unitNumber (d.controllerKey - offset_from_bus_number),
                        [.addCtrl (b + offset_from_bus_number) b],
                        devs ++ [.ctrl ⟨b + offset_from_bus_number, b, true⟩],
                        setStatusAttached meta u n⟩ := by
                    rw [h1, placed_found p tgt u n devs _ meta
                      (b + offset_from_bus_number) b _ d hf]
                  rw [h2] at hres ⊢
                  dsimp only at hres ⊢
                  obtain ⟨h3, h4⟩ : d.unitNumber = slot ∧
                      d.controllerKey - offset_from_bus_number = bus := by
                    injection hres with a b2
                    exact ⟨a, b2⟩
                  subst h3
                  subst h4
                  refine ⟨?_, getStatus_setAttached meta u n⟩
                  rw [attach_pv p tgt u n _ _ _ [] hpv2,
                    placed_found p tgt u n _ _ (setStatusAttached meta u n)
                      (⟨b + offset_from_bus_number, b, true⟩ : SCSICtrl).key
                      (⟨b + offset_from_bus_number, b, true⟩ : SCSICtrl).busNumber [] d hf,
                    setAttached_idem]
              | none =>
                  by_cases ha : availUnitSlots devs (b + offset_from_bus_number) = []
                  · have h2 : disk_attach p tgt u n devs meta =
                          ⟨.errRes "Failed to place new disk - out of disk slots".toList,
                            [.addCtrl (b + offset_from_bus_number) b],
                            devs ++ [.ctrl ⟨b + offset_from_bus_number, b, true⟩], meta⟩ := by
                      rw [h1, placed_full p tgt u n devs _ meta
                        (b + offset_from_bus_number) b _ hf ha]
                    rw [h2] at hres
                    dsimp only at hres
                    exact absurd hres (by simp)
                  · obtain ⟨s, hpop⟩ := setPop_some ha
                    have h2 : disk_attach p tgt u n devs meta =
                          ⟨.ok s b,
                            [.addCtrl (b + offset_from_bus_number) b] ++
                              [.addDisk (b + offset_from_bus_number) s p],
                            (devs ++ [.ctrl ⟨b + offset_from_bus_number, b, true⟩]) ++
                              [.disk ⟨b + offset_from_bus_number, s, tgt⟩],
                            setStatusAttached meta u n⟩ := by
                      rw [h1, placed_slot p tgt u n devs _ meta
                        (b + offset_from_bus_number) b _ s hf ha hpop]
                    rw [h2] at hres ⊢
                    dsimp only at hres ⊢
                    obtain ⟨h3, h4⟩ : s = slot ∧ b = bus := by
                      injection hres with a b2
                      exact ⟨a, b2⟩
                    subst h3
                    subst h4
                    refine ⟨?_, getStatus_setAttached meta u n⟩
                    have hpv3 : (scsiCtrls ((devs ++
                        [.ctrl ⟨b + offset_from_bus_number, b, true⟩]) ++
                        [.disk ⟨b + offset_from_bus_number, s, tgt⟩])).filter
                        (fun x => x.pvscsi) =
                        (⟨b + offset_from_bus_number, b, true⟩ : SCSICtrl) :: [] := by
                      rw [scsiCtrls_append_disk]
                      exact hpv2
                    have hf2 : findDeviceByPath tgt ((devs ++
                        [.ctrl ⟨b + offset_from_bus_number, b, true⟩]) ++
                        [.disk ⟨b + offset_from_bus_number, s, tgt⟩]) =
                        some ⟨b + offset_from_bus_number, s, tgt⟩ := by
                      rw [find_append_none tgt _ _ hf, find_disk_self]
                    rw [attach_pv p tgt u n _ _ _ [] hpv3,
                      placed_found p tgt u n _ _ (setStatusAttached meta u n)
                        (⟨b + offset_from_bus_number, b, true⟩ : SCSICtrl).key
                        (⟨b + offset_from_bus_number, b, true⟩ : SCSICtrl).busNumber [] _ hf2,
                      setAttached_idem]
                    have hbk : b + offset_from_bus_number - offset_from_bus_number = b := by
                      omega
                    dsimp only
                    rw [hbk]

/-- C1 witness: a PVSCSI snapshot already holding the disk returns its
placement with no changes; a fresh attach to a bare PVSCSI controller
is idempotent. -/
theorem C1_witness :
    (disk_attach "p".toList "t".toList "u".toList "n".toList
        [.ctrl ⟨1000, 0, true⟩, .disk ⟨1000, 0, "t".toList⟩] none =
      ⟨.ok 0 (1000 - offset_from_bus_number), [],
        [.ctrl ⟨1000, 0, true⟩, .disk ⟨1000, 0, "t".toList⟩],
        setStatusAttached none "u".toList "n".toList⟩ ∧
      getStatusAttached (disk_attach "p".toList "t".toList "u".toList "n".toList
        [.ctrl ⟨1000, 0, true⟩, .disk ⟨1000, 0, "t".toList⟩] none).meta =
        (true, some (.jstr "u".toList))) ∧
    (disk_attach "p".toList "t".toList "u".toList "n".toList
        (disk_attach "p".toList "t".toList "u".toList "n".toList
          [.ctrl ⟨1000, 0, true⟩] none).devs
        (disk_attach "p".toList "t".toList "u".toList "n".toList
          [.ctrl ⟨1000, 0, true⟩] none).meta =
      ⟨.ok 0 0, [],
        (disk_attach "p".toList "t".toList "u".toList "n".toList
          [.ctrl ⟨1000, 0, true⟩] none).devs,
        (disk_attach "p".toList "t".toList "u".toList "n".toList
          [.ctrl ⟨1000, 0, true⟩] none).meta⟩ ∧
      getStatusAttached (disk_attach "p".toList "t".toList "u".toList "n".toList
        [.ctrl ⟨1000, 0, true⟩] none).meta = (true, some (.jstr "u".toList))) :=
  ⟨C1_attach_existing_and_idempotent.1 "p".toList "t".toList "u".toList "n".toList
      [.ctrl ⟨1000, 0, true⟩, .disk ⟨1000, 0, "t".toList⟩] none
      ⟨1000, 0, true⟩ [] ⟨1000, 0, "t".toList⟩ rfl rfl,
   C1_attach_existing_and_idempotent.2 "p".toList "t".toList "u".toList "n".toList
      [.ctrl ⟨1000, 0, true⟩] none 0 0 (by decide) rfl⟩

theorem filter_head_min {l : List Int} {p : Int → Bool} {x : Int} {t : List Int}
    (hs : l.Pairwise (· ≤ ·)) (h : l.filter p = x :: t) :
    p x = true ∧ x ∈ l ∧ ∀ y ∈ l, p y = true → x ≤ y := by
  induction l with
  | nil => simp at h
  | cons a l2 ih =>
      rw [List.filter_cons] at h
      rw [List.pairwise_cons] at hs
      by_cases hpa : p a = true
      · rw [if_pos hpa] at h
        injection h with h1 h2
        subst h1
        refine ⟨hpa, List.mem_cons_self _ _, ?_⟩
        intro y hy hpy
        rcases List.mem_cons.mp hy with rfl | hy2
        · exact le_refl _
        · exact hs.1 y hy2
      · rw [if_neg hpa] at h
        obtain ⟨h1, h2, h3⟩ := ih hs.2 h
        refine ⟨h1, List.mem_cons_of_mem _ h2, ?_⟩
        intro y hy hpy
        rcases List.mem_cons.mp hy with rfl | hy2
        · exact absurd hpy hpa
        · exact h3 y hy2 hpy

theorem rangeInt_sorted (n : Nat) :
    ((List.range n).map Int.ofNat).Pairwise (· ≤ ·) := by
  exact List.Pairwise.map Int.ofNat
    (fun a b hab => by simp only [Int.ofNat_eq_natCast]; omega) (List.pairwise_lt_range n)

theorem mem_rangeInt {n : Nat} {v : Int} :
    v ∈ (List.range n).map Int.ofNat ↔ 0 ≤ v ∧ v < (n : Int) := by
  simp only [List.mem_map, List.mem_range, Int.ofNat_eq_natCast]
  constructor
  · rintro ⟨m, hm, rfl⟩
    omega
  · rintro ⟨h0, h1⟩
    exact ⟨v.toNat, by omega, by omega⟩

theorem mem_unitsTaken {devs : List VDevice} {k v : Int} :
    v ∈ unitsTaken devs k ↔ ∃ d ∈ vdisks devs, d.controllerKey = k ∧ d.unitNumber = v := by
  simp only [unitsTaken, List.mem_map, List.mem_filter, decide_eq_true_eq]
  constructor
  · rintro ⟨d, ⟨hd, hk⟩, hv⟩
    exact ⟨d, hd, hk, hv⟩
  · rintro ⟨d, hd, hk, hv⟩
    exact ⟨d, ⟨hd, hk⟩, hv⟩

theorem mem_availUnitSlots {devs : List VDevice} {k v : Int} :
    v ∈ availUnitSlots devs k ↔
      (0 ≤ v ∧ v < 16) ∧ v ≠ 7 ∧ v ∉ unitsTaken devs k := by
  unfold availUnitSlots
  rw [List.mem_filter, mem_rangeInt]
  simp

theorem rangeInt_sorted_lt (n : Nat) :
    ((List.range n).map Int.ofNat).Pairwise (· < ·) :=
  List.Pairwise.map Int.ofNat
    (fun a b hab => by simp only [Int.ofNat_eq_natCast]; omega) (List.pairwise_lt_range n)

theorem probeIns_succ (fuel i : Nat) (v : Int) (t : List (Option Int)) :
    probeIns (fuel + 1) i v t =
      if t[i]? = some none then t.set i (some v)
      else probeIns fuel ((5 * i + 1) % t.length) v t := rfl

theorem tableInsert_free {t : List (Option Int)} {v : Int}
    (h0 : 0 ≤ v) (h32 : v < 32) (hlen : t.length = 32)
    (hfree : t[v.toNat]? = some none) :
    tableInsert t v = t.set v.toNat (some v) := by
  rw [tableInsert, hlen, Nat.mod_eq_of_lt (by omega)]
  rw [show (32 : Nat) = 31 + 1 from rfl, probeIns_succ, if_pos hfree]

/-- Pointwise description of a 32-slot table after inserting distinct
values below 32: every inserted value sits alone at its home slot. -/
theorem buildTable_home (rest : List Int) : ∀ (seen : List Int) (t : List (Option Int)),
    t.length = 32 →
    (∀ i : Nat, i < 32 → (i : Int) ∈ seen → t[i]? = some (some (i : Int))) →
    (∀ i : Nat, i < 32 → (i : Int) ∉ seen → t[i]? = some none) →
    (∀ v ∈ rest, 0 ≤ v ∧ v < 32) → (∀ v ∈ rest, v ∉ seen) → rest.Nodup →
    (∀ i : Nat, i < 32 → ((i : Int) ∈ rest ∨ (i : Int) ∈ seen) →
        (rest.foldl tableInsert t)[i]? = some (some (i : Int))) ∧
    (∀ i : Nat, i < 32 → (i : Int) ∉ rest → (i : Int) ∉ seen →
        (rest.foldl tableInsert t)[i]? = some none) := by
  induction rest with
  | nil =>
      intro seen t hlen hin hout hbd hns hnd
      refine ⟨?_, ?_⟩
      · intro i hi hmem
        rcases hmem with hmem | hmem
        · exact absurd hmem (List.not_mem_nil _)
        · exact hin i hi hmem
      · intro i hi _ hnotseen
        exact hout i hi hnotseen
  | cons v r ih =>
      intro seen t hlen hin hout hbd hns hnd
      have hv : 0 ≤ v ∧ v < 32 := hbd v (List.mem_cons_self _ _)
      have hvseen : v ∉ seen := hns v (List.mem_cons_self _ _)
      have hvtoNat : ((v.toNat : Nat) : Int) = v := Int.toNat_of_nonneg hv.1
      have hfree : t[v.toNat]? = some none := by
        apply hout v.toNat (by omega)
        rw [hvtoNat]
        exact hvseen
      have hset : tableInsert t v = t.set v.toNat (some v) :=
        tableInsert_free hv.1 hv.2 hlen hfree
      rw [List.foldl_cons, hset]
      have hlen2 : (t.set v.toNat (some v)).length = 32 := by
        rw [List.length_set]
        exact hlen
      have hin2 : ∀ i : Nat, i < 32 → (i : Int) ∈ v :: seen →
          (t.set v.toNat (some v))[i]? = some (some (i : Int)) := by
        intro i hi hmem
        by_cases hiv : i = v.toNat
        · subst hiv
          rw [List.getElem?_set_self (by omega), hvtoNat]
        · rw [List.getElem?_set_ne (Ne.symm hiv)]
          rcases List.mem_cons.mp hmem with heq | hmem2
          · exact absurd (by omega : i = v.toNat) hiv
          · exact hin i hi hmem2
      have hout2 : ∀ i : Nat, i < 32 → (i : Int) ∉ v :: seen →
          (t.set v.toNat (some v))[i]? = some none := by
        intro i hi hmem
        have hiv : i ≠ v.toNat := by
          intro he
          exact hmem (List.mem_cons.mpr (Or.inl (by omega)))
        rw [List.getElem?_set_ne (Ne.symm hiv)]
        exact hout i hi (fun hm => hmem (List.mem_cons_of_mem _ hm))
      have hbd2 : ∀ w ∈ r, 0 ≤ w ∧ w < 32 := fun w hw => hbd w (List.mem_cons_of_mem _ hw)
      have hns2 : ∀ w ∈ r, w ∉ v :: seen := by
        intro w hw
        rw [List.mem_cons]
        rintro (heq | hm)
        · exact (List.nodup_cons.mp hnd).1 (heq ▸ hw)
        · exact hns w (List.mem_cons_of_mem _ hw) hm
      obtain ⟨hin3, hout3⟩ := ih (v :: seen) _ hlen2 hin2 hout2 hbd2 hns2
        (List.nodup_cons.mp hnd).2
      refine ⟨?_, ?_⟩
      · intro i hi hmem
        apply hin3 i hi
        rcases hmem with hmem | hmem
        · rcases List.mem_cons.mp hmem with heq | hmem2
          · exact Or.inr (List.mem_cons.mpr (Or.inl heq))
          · exact Or.inl hmem2
        · exact Or.inr (List.mem_cons_of_mem _ hmem)
      · intro i hi hr hseen
        apply hout3 i hi
        · intro hm
          exact hr (List.mem_cons_of_mem _ hm)
        · rw [List.mem_cons]
          rintro (heq | hm)
          · exact hr (List.mem_cons.mpr (Or.inl heq))
          · exact hseen hm

theorem buildTable32_spec {vs : List Int}
    (hbd : ∀ v ∈ vs, 0 ≤ v ∧ v < 32) (hnd : vs.Nodup) :
    (∀ i : Nat, i < 32 → (i : Int) ∈ vs →
      (buildTable 32 vs)[i]? = some (some (i : Int))) ∧
    (∀ i : Nat, i < 32 → (i : Int) ∉ vs → (buildTable 32 vs)[i]? = some none) := by
  obtain ⟨h1, h2⟩ := buildTable_home vs [] (List.replicate 32 none) (by simp)
    (fun i hi hmem => absurd hmem (List.not_mem_nil _))
    (fun i hi _ => by rw [List.getElem?_replicate, if_pos hi])
    hbd (fun v hv => List.not_mem_nil _) hnd
  exact ⟨fun i hi hm => h1 i hi (Or.inl hm),
    fun i hi hm => h2 i hi hm (List.not_mem_nil _)⟩

theorem lowestSlot_spec : ∀ {t : List (Option Int)} {v : Int},
    lowestSlot t = some v →
    ∃ k : Nat, t[k]? = some (some v) ∧ ∀ j, j < k → t[j]? = some none := by
  intro t
  induction t with
  | nil => intro v h; exact absurd h (by simp [lowestSlot])
  | cons a r ih =>
      intro v h
      cases a with
      | some w =>
          rw [lowestSlot] at h
          injection h with h
          subst h
          exact ⟨0, by simp, fun j hj => absurd hj (by omega)⟩
      | none =>
          rw [lowestSlot] at h
          obtain ⟨k, hk, hb⟩ := ih h
          refine ⟨k + 1, ?_, ?_⟩
          · rw [List.getElem?_cons_succ]
            exact hk
          · intro j hj
            cases j with
            | zero => simp
            | succ j2 =>
                rw [List.getElem?_cons_succ]
                exact hb j2 (by omega)

/-- With at least 6 values the set resizes to a 32-slot table, every
value sits at its home slot, and pop (scanning from slot 0) returns the
minimum — the head of the ascending insertion order. -/
theorem setPop_head {vs : List Int} (hsrt : vs.Pairwise (· < ·))
    (hbd : ∀ v ∈ vs, 0 ≤ v ∧ v < 32) (hlen : 6 ≤ vs.length) :
    setPop vs = vs.head? := by
  have hne : vs ≠ [] := by
    intro he
    rw [he] at hlen
    exact absurd hlen (by decide)
  obtain ⟨m, rest, rfl⟩ := List.exists_cons_of_ne_nil hne
  rw [setPop, if_neg (by omega)]
  have hnd : (m :: rest).Nodup := hsrt.imp (fun hab => ne_of_lt hab)
  obtain ⟨hin, hout⟩ := buildTable32_spec hbd hnd
  obtain ⟨s, hs⟩ := buildTable_cons_isSome 32 (by norm_num) m rest
  rw [hs]
  obtain ⟨k, hk, hbelow⟩ := lowestSlot_spec hs
  have hk32 : k < 32 := by
    have h1 := (List.getElem?_eq_some.mp hk).1
    have h2 : (buildTable 32 (m :: rest)).length = 32 := buildTable_length 32 _
    omega
  have hm0 : 0 ≤ m ∧ m < 32 := hbd m (List.mem_cons_self _ _)
  have hmem_k : (k : Int) ∈ m :: rest := by
    by_contra hmem
    have h3 := hout k hk32 hmem
    rw [hk] at h3
    exact absurd h3 (by simp)
  have hsk : s = (k : Int) := by
    have h3 := hin k hk32 hmem_k
    rw [hk] at h3
    exact Option.some.inj (Option.some.inj h3)
  have hmk : ¬ m.toNat < k := by
    intro hlt
    have h3 := hbelow m.toNat hlt
    have h4 := hin m.toNat (by omega)
      (by rw [Int.toNat_of_nonneg hm0.1]; exact List.mem_cons_self _ _)
    rw [h3] at h4
    exact absurd h4 (by simp)
  have hmin : m ≤ (k : Int) := by
    rcases List.mem_cons.mp hmem_k with heq | hmem2
    · omega
    · exact le_of_lt ((List.pairwise_cons.mp hsrt).1 _ hmem2)
  have hkm : (k : Int) = m := by omega
  show some s = some m
  rw [hsk, hkm]

/-- With at least 6 free unit slots, `set.pop` on the free-slot set
returns the smallest free unit (the head of the ascending list). -/
theorem availUnitSlots_pop_min {devs : List VDevice} {k : Int}
    (h6 : 6 ≤ (availUnitSlots devs k).length) :
    setPop (availUnitSlots devs k) = (availUnitSlots devs k).head? := by
  apply setPop_head
  · exact (rangeInt_sorted_lt 16).filter _
  · intro v hv
    have hb := mem_rangeInt.mp (List.mem_of_mem_filter hv)
    omega
  · exact h6

/-- A snapshot whose only controller is ParaVirtual (key 1000, bus 0)
and whose disks occupy units 0-5 and 9-15 on it, leaving exactly units
6 and 8 free. -/
def denseSnapshot : List VDevice :=
  [.ctrl ⟨1000, 0, true⟩,
   .disk ⟨1000, 0, "x".toList⟩, .disk ⟨1000, 1, "x".toList⟩,
   .disk ⟨1000, 2, "x".toList⟩, .disk ⟨1000, 3, "x".toList⟩,
   .disk ⟨1000, 4, "x".toList⟩, .disk ⟨1000, 5, "x".toList⟩,
   .disk ⟨1000, 9, "x".toList⟩, .disk ⟨1000, 10, "x".toList⟩,
   .disk ⟨1000, 11, "x".toList⟩, .disk ⟨1000, 12, "x".toList⟩,
   .disk ⟨1000, 13, "x".toList⟩, .disk ⟨1000, 14, "x".toList⟩,
   .disk ⟨1000, 15, "x".toList⟩]

/-- C4 counterexample: with units 0-5 and 9-15 taken the free units are
6 and 8, but attach places the disk at unit 8, not at the lowest free
unit 6. The two-element difference set stays in an 8-slot hash table: 6
sits at slot 6 while 8 wraps to slot 0 (hash 8 mod 8), and `set.pop`
scans the table from slot 0, so `availSlots.pop()` returns 8. The
claim's "picks the LOWEST unused unit number" is false of the
program. -/
theorem C4_counterexample_not_lowest_unit :
    availUnitSlots denseSnapshot 1000 = [6, 8] ∧
    (disk_attach "p".toList "t".toList "u".toList "n".toList
      denseSnapshot none).res = .ok 8 0 ∧
    (6 : Int) < 8 :=
  ⟨by decide, by decide, by decide⟩

/-- C4 (amended): when attach places the disk on the chosen controller
it takes a free unit — in 0-15, never 7, never taken — namely the
member of the free set that CPython's `set.pop` returns, and this is
the lowest free unit whenever at least 6 units are free (the set's hash
table then has 32 slots with every value at its home slot; with 5 or
fewer free units the 8-slot table can place a unit of 8-15 below the
minimum, and the popped unit need not be the lowest). When attach must
add a controller it takes the lowest unused bus number in [0,4) and
synthesizes the controller key as 1000 plus that bus number. -/
theorem C4_placement_amended :
    (∀ p tgt u n devs meta c cr,
      (scsiCtrls devs).filter (fun x => x.pvscsi) = c :: cr →
      findDeviceByPath tgt devs = none →
      availUnitSlots devs c.key ≠ [] →
      ∃ s,
        (disk_attach p tgt u n devs meta).res = .ok s c.busNumber ∧
        (disk_attach p tgt u n devs meta).changes = [.addDisk c.key s p] ∧
        (0 ≤ s ∧ s < 16 ∧ s ≠ 7 ∧ s ∉ unitsTaken devs c.key) ∧
        (6 ≤ (availUnitSlots devs c.key).length →
          ∀ v : Int, 0 ≤ v → v < 16 → v ≠ 7 → v ∉ unitsTaken devs c.key → s ≤ v)) ∧
    (∀ p tgt u n devs meta b br,
      (scsiCtrls devs).filter (fun x => x.pvscsi) = [] →
      (scsiCtrls devs).length < max_scsi_controllers →
      availBusSlots (scsiCtrls devs) = b :: br →
      (∃ rest, (disk_attach p tgt u n devs meta).changes =
        .addCtrl (b + offset_from_bus_number) b :: rest) ∧
      (0 ≤ b ∧ b < 4 ∧ b ∉ (scsiCtrls devs).map (fun c => c.busNumber)) ∧
      (∀ v : Int, 0 ≤ v → v < 4 →
        v ∉ (scsiCtrls devs).map (fun c => c.busNumber) → b ≤ v)) := by
  constructor
  · intro p tgt u n devs meta c cr hpv hf hne
    obtain ⟨s, hpop⟩ := setPop_some hne
    have h1 : disk_attach p tgt u n devs meta =
        ⟨.ok s c.busNumber, [.addDisk c.key s p],
          devs ++ [.disk ⟨c.key, s, tgt⟩], setStatusAttached meta u n⟩ := by
      rw [attach_pv p tgt u n devs meta c cr hpv,
        placed_slot p tgt u n devs devs meta c.key c.busNumber [] s hf hne hpop]
      rfl
    have hsmem : s ∈ availUnitSlots devs c.key := setPop_mem hpop
    obtain ⟨hbd, hps⟩ := mem_availUnitSlots.mp hsmem
    refine ⟨s, by rw [h1], by rw [h1], ⟨hbd.1, hbd.2, hps.1, hps.2⟩, ?_⟩
    intro h6 v h0 h4 h7 hvt
    have hhead := availUnitSlots_pop_min h6
    rw [hpop] at hhead
    obtain ⟨tl, htl⟩ : ∃ tl, availUnitSlots devs c.key = s :: tl := by
      cases hcase : availUnitSlots devs c.key with
      | nil => exact absurd hcase hne
      | cons a tl =>
          rw [hcase] at hhead
          have hsa : s = a := by injection hhead
          exact ⟨tl, by rw [hsa]⟩
    obtain ⟨hpb, hmemb, hmin⟩ := filter_head_min (rangeInt_sorted 16) htl
    exact hmin v (mem_rangeInt.mpr ⟨h0, by exact_mod_cast h4⟩) (by simpa using ⟨h7, hvt⟩)
  · intro p tgt u n devs meta b br hpv hlen hb
    have h1 := attach_addctrl p tgt u n devs meta b br hpv (by omega) hb
    obtain ⟨hp, hmem, hmin⟩ := filter_head_min (rangeInt_sorted 4) hb
    have hps : b ∉ (scsiCtrls devs).map (fun c => c.busNumber) := by simpa using hp
    have hbd : 0 ≤ b ∧ b < 4 := by simpa using mem_rangeInt.mp hmem
    refine ⟨?_, ⟨hbd.1, hbd.2, hps⟩, ?_⟩
    · rw [h1]
      unfold disk_attach_placed
      cases hf : findDeviceByPath tgt
          (devs ++ [.ctrl ⟨b + offset_from_bus_number, b, true⟩]) with
      | some d => exact ⟨[], rfl⟩
      | none =>
          dsimp only
          by_cases ha : (availUnitSlots devs (b + offset_from_bus_number)).length = 0
          · rw [if_pos ha]
            exact ⟨[], rfl⟩
          · rw [if_neg ha]
            cases hpop : setPop (availUnitSlots devs (b + offset_from_bus_number)) with
            | none => exact ⟨[], rfl⟩
            | some s => exact ⟨[.addDisk (b + offset_from_bus_number) s p], rfl⟩
    · intro v h0 h4 hvt
      exact hmin v (mem_rangeInt.mpr ⟨h0, by exact_mod_cast h4⟩) (by simpa using hvt)

/-- C4 witness: with only unit 0 taken (14 units free, so pop is the
minimum) the placed disk gets the lowest free unit, and with one
non-PVSCSI controller on bus 0 the added PVSCSI controller gets bus 1
and key 1001. -/
theorem C4_witness :
    (∃ s,
      (disk_attach "p".toList "t".toList "u".toList "n".toList
        [.ctrl ⟨1000, 0, true⟩, .disk ⟨1000, 0, "x".toList⟩] none).res =
          .ok s (0 : Int) ∧
      (disk_attach "p".toList "t".toList "u".toList "n".toList
        [.ctrl ⟨1000, 0, true⟩, .disk ⟨1000, 0, "x".toList⟩] none).changes =
          [.addDisk 1000 s "p".toList] ∧
      (0 ≤ s ∧ s < 16 ∧ s ≠ 7 ∧
        s ∉ unitsTaken [.ctrl ⟨1000, 0, true⟩, .disk ⟨1000, 0, "x".toList⟩] 1000) ∧
      (6 ≤ (availUnitSlots
          [.ctrl ⟨1000, 0, true⟩, .disk ⟨1000, 0, "x".toList⟩] 1000).length →
        ∀ v : Int, 0 ≤ v → v < 16 → v ≠ 7 →
          v ∉ unitsTaken [.ctrl ⟨1000, 0, true⟩, .disk ⟨1000, 0, "x".toList⟩] 1000 →
          s ≤ v)) ∧
    (∃ rest, (disk_attach "p".toList "t".toList "u".toList "n".toList
        [.ctrl ⟨1000, 0, false⟩] none).changes =
      .addCtrl (1 + offset_from_bus_number) 1 :: rest) :=
  ⟨C4_placement_amended.1 "p".toList "t".toList "u".toList "n".toList
      [.ctrl ⟨1000, 0, true⟩, .disk ⟨1000, 0, "x".toList⟩] none
      ⟨1000, 0, true⟩ [] rfl rfl (by decide),
   (C4_placement_amended.2 "p".toList "t".toList "u".toList "n".toList
      [.ctrl ⟨1000, 0, false⟩] none 1 [2, 3] rfl (by decide) rfl).1⟩

/-- C5: the attach placement never issues a disk-add with unit 7 or
with a (controllerKey, unit) pair a snapshot disk already occupies;
with no PVSCSI controller and 4 SCSI controllers present it fails with
the bus-capacity error and issues nothing; with all eligible unit
slots taken it fails with the disk-capacity error and issues
nothing. -/
theorem C5_allocator_never_collides :
    (∀ p tgt u n devs meta k s f,
      .addDisk k s f ∈ (disk_attach p tgt u n devs meta).changes →
      s ≠ 7 ∧ ∀ d ∈ vdisks devs, ¬(d.controllerKey = k ∧ d.unitNumber = s)) ∧
    (∀ p tgt u n devs meta,
      (scsiCtrls devs).filter (fun x => x.pvscsi) = [] →
      max_scsi_controllers ≤ (scsiCtrls devs).length →
      (disk_attach p tgt u n devs meta).res =
        .errRes "Failed to place PVSCI adapter - out of bus slots".toList ∧
      (disk_attach p tgt u n devs meta).changes = []) ∧
    (∀ p tgt u n devs meta c cr,
      (scsiCtrls devs).filter (fun x => x.pvscsi) = c :: cr →
      findDeviceByPath tgt devs = none →
      availUnitSlots devs c.key = [] →
      (disk_attach p tgt u n devs meta).res =
        .errRes "Failed to place new disk - out of disk slots".toList ∧
      (disk_attach p tgt u n devs meta).changes = []) := by
  refine ⟨?_, ?_, ?_⟩
  · intro p tgt u n devs meta k s f hmem
    cases hpv : (scsiCtrls devs).filter (fun x => x.pvscsi) with
    | cons c cr =>
        cases hf : findDeviceByPath tgt devs with
        | some d =>
            rw [attach_pv p tgt u n devs meta c cr hpv,
              placed_found p tgt u n devs devs meta c.key c.busNumber [] d hf] at hmem
            dsimp only at hmem
            exact absurd hmem (by simp)
        | none =>
            by_cases ha : availUnitSlots devs c.key = []
            · rw [attach_pv p tgt u n devs meta c cr hpv,
                placed_full p tgt u n devs devs meta c.key c.busNumber [] hf ha] at hmem
              dsimp only at hmem
              exact absurd hmem (by simp)
            · obtain ⟨s2, hpop⟩ := setPop_some ha
              rw [attach_pv p tgt u n devs meta c cr hpv,
                placed_slot p tgt u n devs devs meta c.key c.busNumber [] s2
                  hf ha hpop] at hmem
              dsimp only at hmem
              simp only [List.nil_append, List.mem_singleton, DevChange.addDisk.injEq] at hmem
              obtain ⟨rfl, rfl, rfl⟩ := hmem
              have hps := (mem_availUnitSlots.mp (setPop_mem hpop)).2
              refine ⟨hps.1, ?_⟩
              intro d hd ⟨hdk, hdu⟩
              exact hps.2 (mem_unitsTaken.mpr ⟨d, hd, hdk, hdu⟩)
    | nil =>
        by_cases hlen : max_scsi_controllers ≤ (scsiCtrls devs).length
        · rw [attach_ctrlfull p tgt u n devs meta hpv hlen] at hmem
          dsimp only at hmem
          exact absurd hmem (by simp)
        · cases hb : availBusSlots (scsiCtrls devs) with
          | nil =>
              have h1 : disk_attach p tgt u n devs meta = ⟨.pyError, [], devs, meta⟩ := by
                unfold disk_attach
                rw [hpv]
                dsimp only
                rw [if_neg hlen, hb]
              rw [h1] at hmem
              dsimp only at hmem
              exact absurd hmem (by simp)
          | cons b br =>
              rw [attach_addctrl p tgt u n devs meta b br hpv hlen hb] at hmem
              cases hf : findDeviceByPath tgt
                  (devs ++ [.ctrl ⟨b + offset_from_bus_number, b, true⟩]) with
              | some d =>
                  rw [placed_found p tgt u n devs _ meta
                    (b + offset_from_bus_number) b _ d hf] at hmem
                  dsimp only at hmem
                  exact absurd hmem (by simp)
              | none =>
                  by_cases ha : availUnitSlots devs (b + offset_from_bus_number) = []
                  · rw [placed_full p tgt u n devs _ meta
                      (b + offset_from_bus_number) b _ hf ha] at hmem
                    dsimp only at hmem
                    exact absurd hmem (by simp)
                  · obtain ⟨s2, hpop⟩ := setPop_some ha
                    rw [placed_slot p tgt u n devs _ meta
                      (b + offset_from_bus_number) b _ s2 hf ha hpop] at hmem
                    dsimp only at hmem
                    simp only [List.cons_append, List.nil_append, List.mem_cons,
                      List.not_mem_nil, or_false, DevChange.addDisk.injEq,
                      reduceCtorEq, false_or] at hmem
                    obtain ⟨rfl, rfl, rfl⟩ := hmem
                    have hps := (mem_availUnitSlots.mp (setPop_mem hpop)).2
                    refine ⟨hps.1, ?_⟩
                    intro d hd ⟨hdk, hdu⟩
                    exact hps.2 (mem_unitsTaken.mpr ⟨d, hd, hdk, hdu⟩)
  · intro p tgt u n devs meta hpv hlen
    rw [attach_ctrlfull p tgt u n devs meta hpv hlen]
    exact ⟨rfl, rfl⟩
  · intro p tgt u n devs meta c cr hpv hf ha
    rw [attach_pv p tgt u n devs meta c cr hpv,
      placed_full p tgt u n devs devs meta c.key c.busNumber [] hf ha]
    exact ⟨rfl, rfl⟩

/-- C5 witness: the disk-add issued on a bare PVSCSI controller avoids
unit 7 and collisions; four non-PVSCSI controllers give the bus
capacity error with no changes; a controller with every eligible unit
taken gives the disk capacity error with no changes. -/
theorem C5_witness :
    ((0 : Int) ≠ 7 ∧ ∀ d ∈ vdisks [VDevice.ctrl ⟨1000, 0, true⟩],
        ¬(d.controllerKey = 1000 ∧ d.unitNumber = 0)) ∧
    ((disk_attach "p".toList "t".toList "u".toList "n".toList
        [.ctrl ⟨1000, 0, false⟩, .ctrl ⟨1001, 1, false⟩,
         .ctrl ⟨1002, 2, false⟩, .ctrl ⟨1003, 3, false⟩] none).res =
      .errRes "Failed to place PVSCI adapter - out of bus slots".toList ∧
     (disk_attach "p".toList "t".toList "u".toList "n".toList
        [.ctrl ⟨1000, 0, false⟩, .ctrl ⟨1001, 1, false⟩,
         .ctrl ⟨1002, 2, false⟩, .ctrl ⟨1003, 3, false⟩] none).changes = []) ∧
    ((disk_attach "p".toList "t".toList "u".toList "n".toList
        [.ctrl ⟨1000, 0, true⟩,
         .disk ⟨1000, 0, "x".toList⟩, .disk ⟨1000, 1, "x".toList⟩,
         .disk ⟨1000, 2, "x".toList⟩, .disk ⟨1000, 3, "x".toList⟩,
         .disk ⟨1000, 4, "x".toList⟩, .disk ⟨1000, 5, "x".toList⟩,
         .disk ⟨1000, 6, "x".toList⟩, .disk ⟨1000, 8, "x".toList⟩,
         .disk ⟨1000, 9, "x".toList⟩, .disk ⟨1000, 10, "x".toList⟩,
         .disk ⟨1000, 11, "x".toList⟩, .disk ⟨1000, 12, "x".toList⟩,
         .disk ⟨1000, 13, "x".toList⟩, .disk ⟨1000, 14, "x".toList⟩,
         .disk ⟨1000, 15, "x".toList⟩] none).res =
      .errRes "Failed to place new disk - out of disk slots".toList ∧
     (disk_attach "p".toList "t".toList "u".toList "n".toList
        [.ctrl ⟨1000, 0, true⟩,
         .disk ⟨1000, 0, "x".toList⟩, .disk ⟨1000, 1, "x".toList⟩,
         .disk ⟨1000, 2, "x".toList⟩, .disk ⟨1000, 3, "x".toList⟩,
         .disk ⟨1000, 4, "x".toList⟩, .disk ⟨1000, 5, "x".toList⟩,
         .disk ⟨1000, 6, "x".toList⟩, .disk ⟨1000, 8, "x".toList⟩,
         .disk ⟨1000, 9, "x".toList⟩, .disk ⟨1000, 10, "x".toList⟩,
         .disk ⟨1000, 11, "x".toList⟩, .disk ⟨1000, 12, "x".toList⟩,
         .disk ⟨1000, 13, "x".toList⟩, .disk ⟨1000, 14, "x".toList⟩,
         .disk ⟨1000, 15, "x".toList⟩] none).changes = []) :=
  ⟨C5_allocator_never_collides.1 "p".toList "t".toList "u".toList "n".toList
      [VDevice.ctrl ⟨1000, 0, true⟩] none 1000 0 "p".toList (by decide),
   C5_allocator_never_collides.2.1 "p".toList "t".toList "u".toList "n".toList
      [.ctrl ⟨1000, 0, false⟩, .ctrl ⟨1001, 1, false⟩,
       .ctrl ⟨1002, 2, false⟩, .ctrl ⟨1003, 3, false⟩] none rfl (by decide),
   C5_allocator_never_collides.2.2 "p".toList "t".toList "u".toList "n".toList
      [.ctrl ⟨1000, 0, true⟩,
       .disk ⟨1000, 0, "x".toList⟩, .disk ⟨1000, 1, "x".toList⟩,
       .disk ⟨1000, 2, "x".toList⟩, .disk ⟨1000, 3, "x".toList⟩,
       .disk ⟨1000, 4, "x".toList⟩, .disk ⟨1000, 5, "x".toList⟩,
       .disk ⟨1000, 6, "x".toList⟩, .disk ⟨1000, 8, "x".toList⟩,
       .disk ⟨1000, 9, "x".toList⟩, .disk ⟨1000, 10, "x".toList⟩,
       .disk ⟨1000, 11, "x".toList⟩, .disk ⟨1000, 12, "x".toList⟩,
       .disk ⟨1000, 13, "x".toList⟩, .disk ⟨1000, 14, "x".toList⟩,
       .disk ⟨1000, 15, "x".toList⟩] none ⟨1000, 0, true⟩ [] rfl rfl (by decide)⟩

/-!
## Volume creation (createVMDK, vmdk_ops.py lines 130-151)

External commands (`vmkfstools` create/delete, `mkfs`, the `objtool`
backing lookup) and the kv-store creation are oracles in `CreateEnv`;
the actions the code performs are logged so cleanup behaviour is
visible.
-/

/-- `SIZE` (volume_kv.py line 53). -/
def SIZE : List Char := "size".toList

/-- `VSAN_POLICY_NAME` (volume_kv.py line 51). -/
def VSAN_POLICY_NAME : List Char := "vsan-policy-name".toList

/-- `DISK_ALLOCATION_FORMAT` (volume_kv.py line 56). -/
def DISK_ALLOCATION_FORMAT : List Char := "diskformat".toList

/-- `VALID_ALLOCATION_FORMATS` (volume_kv.py line 58). -/
def VALID_ALLOCATION_FORMATS : List (List Char) :=
  ["zeroedthick".toList, "thin".toList, "eagerzeroedthick".toList]

/-- Lookup in a string-valued options dict. -/
def olookup : List (List Char × List Char) → List Char → Option (List Char)
  | [], _ => none
  | (k, v) :: t, key => if k = key then some v else olookup t key

/-- Outcomes of the external collaborators used by `createVMDK`. -/
structure CreateEnv where
  fileExists : Bool
  isOnVsan : Bool
  policyExists : List Char → Bool
  createRC : Int
  createOut : List Char
  kvCreateOk : Bool
  removeRC : Int
  removeOut : List Char
  backing : Option (List Char)
  mkfsRC : Int
  mkfsOut : List Char

/-- External commands run / stores touched by a create. -/
inductive CreateAction where
  | runCreateCmd : CreateAction
  | kvCreateTried : CreateAction
  | runRemoveCmd : CreateAction
  | runMkfsCmd : CreateAction
deriving DecidableEq

/-- The allocation-format check of `validate_opts`. -/
def validate_opts_format (opts : List (List Char × List Char)) : Option (List Char) :=
  match olookup opts DISK_ALLOCATION_FORMAT with
  | some fmt =>
      if !(VALID_ALLOCATION_FORMATS.contains fmt) then
        some ("Disk Allocation Format ".toList ++ fmt ++
          " does not exist. Valid options are: zeroedthick, thin, eagerzeroedthick".toList)
      else none
  | none => none

/-- The policy and allocation-format checks of `validate_opts`. -/
def validate_opts_policy (env : CreateEnv) (opts : List (List Char × List Char)) :
    Option (List Char) :=
  match olookup opts VSAN_POLICY_NAME with
  | some pol =>
      if !env.isOnVsan then
        some "Cannot use a VSAN policy on a non-VSAN datastore".toList
      else if !env.policyExists pol then
        some ("Policy ".toList ++ pol ++ " does not exist".toList)
      else validate_opts_format opts
  | none => validate_opts_format opts

/-- `validate_opts` (vmdk_ops.py, lines 187-208): reject unknown keys,
then validate size, vsan policy and allocation format in that order;
`some msg` models the raised `ValidationError` (the unknown-keys
message's Python-repr details are abbreviated). -/
def validate_opts (env : CreateEnv) (opts : List (List Char × List Char)) :
    Option (List Char) :=
  if ((opts.map Prod.fst).filter
      (fun k => !([SIZE, VSAN_POLICY_NAME, DISK_ALLOCATION_FORMAT].contains k))) ≠ [] then
    some ("Invalid options: ".toList ++
      (opts.map Prod.fst).flatten ++
      " Valid options and defaults: size, vsan-policy-name, diskformat".toList)
  else match olookup opts SIZE with
  | some sz =>
      if validate_size sz then validate_opts_policy env opts else
        some ("Invalid format for size. \nValid sizes must be of form X[kKmMgGtT]b where X is aninteger. Default = 100mb".toList)
  | none => validate_opts_policy env opts

/-- `removeVMDK` (vmdk_ops.py, lines 301-307). -/
def removeVMDK (env : CreateEnv) (vmdk_path : List Char) : Option (List Char) :=
  if env.removeRC ≠ 0 then
    some ("Failed to remove ".toList ++ vmdk_path ++ ". ".toList ++ env.removeOut)
  else none

/-- `formatVmdk` (vmdk_ops.py, lines 277-297): no backing → error;
mkfs failure → best-effort remove, reporting either the plain format
failure (cleanup worked) or the combined format-and-delete failure. -/
def formatVmdk (env : CreateEnv) (vmdk_path vol_name : List Char) :
    Option (List Char) × List CreateAction :=
  match env.backing with
  | none => (some ("Failed to format ".toList ++ vmdk_path ++ ".".toList), [])
  | some _ =>
      if env.mkfsRC ≠ 0 then
        match removeVMDK env vmdk_path with
        | none =>
            (some ("Failed to format ".toList ++ vmdk_path ++ ".".toList),
              [.runMkfsCmd, .runRemoveCmd])
        | some _ =>
            (some ("Unable to format ".toList ++ vmdk_path ++
              " and unable to delete volume. Please delete it manually.".toList),
              [.runMkfsCmd, .runRemoveCmd])
      else (none, [.runMkfsCmd])

/-- `createVMDK` (vmdk_ops.py, lines 130-151): existing file → error;
validation failure → error; create command failure → error; kv-store
creation failure → remove the image (ignoring the removal's result)
and report the kv failure; otherwise format the volume. -/
def createVMDK (env : CreateEnv) (vmdk_path vm_name vol_name : List Char)
    (opts : List (List Char × List Char)) : Option (List Char) × List CreateAction :=
  if env.fileExists then
    (some ("File ".toList ++ vmdk_path ++ " already exists".toList), [])
  else match validate_opts env opts with
  | some e => (some e, [])
  | none =>
      if env.createRC ≠ 0 then
        (some ("Failed to create ".toList ++ vmdk_path ++ ". ".toList ++ env.createOut),
          [.runCreateCmd])
      else if !env.kvCreateOk then
        (some ("Failed to create metadata kv store for ".toList ++ vmdk_path),
          [.runCreateCmd, .kvCreateTried, .runRemoveCmd])
      else
        ((formatVmdk env vmdk_path vol_name).1,
          [.runCreateCmd, .kvCreateTried] ++ (formatVmdk env vmdk_path vol_name).2)

/-- `pat` occurs at the start of `s`. -/
def leadsWith : List Char → List Char → Bool
  | [], _ => true
  | _ :: _, [] => false
  | a :: pt, b :: st => a = b && leadsWith pt st

/-- `pat` occurs somewhere in `s` (substring test). -/
def occursIn (pat : List Char) : List Char → Bool
  | [] => leadsWith pat []
  | c :: t => leadsWith pat (c :: t) || occursIn pat t

/-- C3 counterexample: image creation succeeds, metadata kv creation
fails, and the cleanup removal also fails (exit 1, diagnostic "boom").
The code calls removeVMDK but ignores its result: the reported error
is exactly the kv-store message and contains neither the cleanup
diagnostic nor any removal-failure text. -/
theorem C3_counterexample_cleanup_error_dropped :
    (createVMDK
        ⟨false, false, fun _ => false, 0, [], false, 1, "boom".toList, none, 0, []⟩
        "p".toList "vm".toList "v".toList []).1 =
      some ("Failed to create metadata kv store for p".toList) ∧
    CreateAction.runRemoveCmd ∈ (createVMDK
        ⟨false, false, fun _ => false, 0, [], false, 1, "boom".toList, none, 0, []⟩
        "p".toList "vm".toList "v".toList []).2 ∧
    occursIn "boom".toList
      ("Failed to create metadata kv store for p".toList) = false ∧
    occursIn "Failed to remove".toList
      ("Failed to create metadata kv store for p".toList) = false :=
  ⟨by decide, by decide, by decide, by decide⟩

/-- C3 (amended): when the image is created but metadata-record
creation fails, create removes the partially-created image and reports
the metadata failure — the cleanup's own outcome is ignored, not
appended. The combined both-failures error exists only in the
filesystem-format failure path, where a failed cleanup turns the
report into the unable-to-format-and-unable-to-delete message. -/
theorem C3_create_cleanup_amended :
    (∀ env : CreateEnv, ∀ vmdk_path vm_name vol_name opts,
      env.fileExists = false →
      validate_opts env opts = none →
      env.createRC = 0 →
      env.kvCreateOk = false →
      createVMDK env vmdk_path vm_name vol_name opts =
        (some ("Failed to create metadata kv store for ".toList ++ vmdk_path),
          [.runCreateCmd, .kvCreateTried, .runRemoveCmd])) ∧
    (∀ env : CreateEnv, ∀ vmdk_path vol_name bk,
      env.backing = some bk → env.mkfsRC ≠ 0 → env.removeRC ≠ 0 →
      formatVmdk env vmdk_path vol_name =
        (some ("Unable to format ".toList ++ vmdk_path ++
          " and unable to delete volume. Please delete it manually.".toList),
          [.runMkfsCmd, .runRemoveCmd])) := by
  constructor
  · intro env p vmn voln opts h1 h2 h3 h4
    simp [createVMDK, h1, h2, h3, h4]
  · intro env p voln bk h1 h2 h3
    simp [formatVmdk, removeVMDK, h1, h2, h3]

/-- C3 witness: concrete environments for the kv-failure path and the
format-failure path. -/
theorem C3_witness :
    createVMDK ⟨false, false, fun _ => false, 0, [], false, 1, "boom".toList, none, 0, []⟩
        "p".toList "vm".toList "v".toList [] =
      (some ("Failed to create metadata kv store for ".toList ++ "p".toList),
        [.runCreateCmd, .kvCreateTried, .runRemoveCmd]) ∧
    formatVmdk ⟨false, false, fun _ => false, 0, [], true, 1, [], some "b".toList, 1, []⟩
        "p".toList "v".toList =
      (some ("Unable to format ".toList ++ "p".toList ++
        " and unable to delete volume. Please delete it manually.".toList),
        [.runMkfsCmd, .runRemoveCmd]) :=
  ⟨C3_create_cleanup_amended.1
      ⟨false, false, fun _ => false, 0, [], false, 1, "boom".toList, none, 0, []⟩
      "p".toList "vm".toList "v".toList [] rfl rfl rfl rfl,
   C3_create_cleanup_amended.2
      ⟨false, false, fun _ => false, 0, [], true, 1, [], some "b".toList, 1, []⟩
      "p".toList "v".toList "b".toList rfl (by decide) (by decide)⟩

/-!
## Request dispatch (executeRequest, vmdk_ops.py lines 440-488)

`get_datastore_name(config_path)` and the datastore listing come from
`vmdk_utils` (an external module): the caller's home datastore is
passed in directly and the known-datastore list lives in the
environment. The per-command handlers are represented by a
`dispatched` token carrying the command and the computed vmdk path.
-/

/-- `\w` of the volume regex plus `.` ([a-zA-Z0-9_.], ASCII model). -/
def nameChar (c : Char) : Bool := c.isAlphanum || c = '_' || c = '.'

/-- Datastore characters: `nameChar` plus `-`. -/
def dsChar (c : Char) : Bool := nameChar c || c = '-'

/-- `MAX_VOL_NAME_LEN` (vmdk_ops.py line 67). -/
def MAX_VOL_NAME_LEN : Nat := 100

/-- `MAX_DS_NAME_LEN` (vmdk_ops.py line 68). -/
def MAX_DS_NAME_LEN : Nat := 100

/-- The `ValidationError` text for a syntactically invalid volume spec. -/
def parseSyntaxMsg (s : List Char) : List Char :=
  "Invalid syntax: ".toList ++ [qch] ++ s ++ [qch] ++
  ".\nValid syntax is volume@datastore, where ".toList ++ [qch] ++ "volume".toList ++
  [qch] ++ " or ".toList ++ [qch] ++ "datastore".toList ++ [qch] ++
  " contain up to 100 of allowed characters ([a-zA-Z0-9_.]) each".toList

/-- Length checks of `parse_vol_name` after a regex match. -/
def parseLengthChecks (n : List Char) (d : Option (List Char)) :
    Except (List Char) (List Char × Option (List Char)) :=
  if MAX_VOL_NAME_LEN < n.length then
    .error "Volume name is too long (max len is 100)".toList
  else match d with
    | some ds =>
        if MAX_DS_NAME_LEN < ds.length then
          .error "Datastore name is too long (max len is 100)".toList
        else .ok (n, some ds)
    | none => .ok (n, none)

/-- `parse_vol_name` (vmdk_ops.py, lines 392-412): match the anchored
regex `\A([\w\_.]+)(@([\w\_.\-]+))?$` (the `$` also matches just
before one final newline; greedy runs are maximal, and since no name
character is `@` and no datastore character is a newline, the
deterministic maximal-run parse below is equivalent to the regex),
then enforce the two length limits. -/
def parse_vol_name (s : List Char) :
    Except (List Char) (List Char × Option (List Char)) :=
  let n := s.takeWhile nameChar
  let rest := s.drop n.length
  if n.isEmpty then .error (parseSyntaxMsg s)
  else
    match rest with
    | [] => parseLengthChecks n none
    | ['\n'] => parseLengthChecks n none
    | '@' :: r =>
        let d := r.takeWhile dsChar
        let r2 := r.drop d.length
        if d.isEmpty then .error (parseSyntaxMsg s)
        else if r2 = [] ∨ r2 = ['\n'] then parseLengthChecks n (some d)
        else .error (parseSyntaxMsg s)
    | _ => .error (parseSyntaxMsg s)

/-- External state consumed by `executeRequest`. -/
structure ExecEnv where
  knownDS : List (List Char)
  dirExists : List Char → Bool
  mkdirOk : List Char → Bool

/-- `DOCK_VOLS_DIR` (vmdk_ops.py line 91). -/
def DOCK_VOLS_DIR : List Char := "dockvols".toList

/-- `get_vol_path` (vmdk_ops.py, lines 368-385): the dockvols folder
on the datastore, created by osfs-mkdir when absent; `none` when the
creation fails. -/
def get_vol_path (env : ExecEnv) (datastore : List Char) : Option (List Char) :=
  let path := "/vmfs/volumes/".toList ++ datastore ++ "/".toList ++ DOCK_VOLS_DIR
  if env.dirExists path then some path
  else if env.mkdirOk path then some path
  else none

/-- Modelled from the spec: `vmdk_utils.get_vmdk_path` is not under
src/ (only its caller is); §3 says a volume's canonical path is
derived deterministically from the pair, as the vmdk file named after
the volume inside the per-datastore dockvols directory. -/
def get_vmdk_path (path vol_name : List Char) : List Char :=
  path ++ "/".toList ++ vol_name ++ ".vmdk".toList

/-- Outcome of `executeRequest`. -/
inductive ExecOut where
  | listed : List Char → ExecOut
  | errOut : List Char → ExecOut
  | dispatched : List Char → List Char → ExecOut
deriving DecidableEq

/-- Python `str(ValidationError)` is `repr(msg)`: the message wrapped
in quotes (repr escaping of the content elided). -/
def pyStrRepr (s : List Char) : List Char := [qch] ++ s ++ [qch]

/-- `", ".join(...)`. -/
def commaJoin : List (List Char) → List Char
  | [] => []
  | [x] => x
  | x :: y :: t => x ++ ", ".toList ++ commaJoin (y :: t)

/-- The invalid-datastore error text of executeRequest (lines 462-465),
which enumerates the known datastores. -/
def invalidDsMsg (ds : List Char) (known : List (List Char)) (vmds : List Char) : List Char :=
  "Invalid datastore ".toList ++ [qch] ++ ds ++ [qch] ++
  ".\nKnown datastores: ".toList ++ commaJoin known ++
  ".\nDefault datastore: ".toList ++ vmds

/-- The tail of `executeRequest` once the datastore is fixed (lines
467-488): resolve the dockvols path, derive the vmdk path, route on
the command. -/
def executeGo (env : ExecEnv) (cmd vol_name datastore : List Char) : ExecOut :=
  match get_vol_path env datastore with
  | none => .errOut "Failed to initialize volume path None".toList
  | some path =>
      if cmd = "get".toList then .dispatched cmd (get_vmdk_path path vol_name)
      else if cmd = "create".toList then .dispatched cmd (get_vmdk_path path vol_name)
      else if cmd = "remove".toList then .dispatched cmd (get_vmdk_path path vol_name)
      else if cmd = "attach".toList then .dispatched cmd (get_vmdk_path path vol_name)
      else if cmd = "detach".toList then .dispatched cmd (get_vmdk_path path vol_name)
      else .errOut ("Unknown command:".toList ++ cmd)

/-- Datastore selection of `executeRequest` (lines 459-465): no
datastore in the spec → the caller's home datastore, with no
known-datastore check; a named datastore must be known or the request
fails with the enumerating error. -/
def executeAfterParse (env : ExecEnv) (vm_datastore cmd vol_name : List Char)
    (dsOpt : Option (List Char)) : ExecOut :=
  match dsOpt with
  | none => executeGo env cmd vol_name vm_datastore
  | some ds =>
      if env.knownDS.contains ds then executeGo env cmd vol_name ds
      else .errOut (invalidDsMsg ds env.knownDS vm_datastore)

/-- `executeRequest` (vmdk_ops.py, lines 440-488). The caller's home
datastore (resolved externally from config_path) is `vm_datastore`. -/
def executeRequest (env : ExecEnv) (vm_datastore cmd full_vol_name : List Char) : ExecOut :=
  if cmd = "list".toList then .listed vm_datastore
  else match parse_vol_name full_vol_name with
  | .error e => .errOut (pyStrRepr e)
  | .ok (vol, dsOpt) => executeAfterParse env vm_datastore cmd vol dsOpt

/-- C7 counterexample: an unknown command with a syntactically invalid
volume spec fails with the parse error, not with the unknown-command
error — the command check is the last step of the dispatcher. -/
theorem C7_counterexample_unknown_cmd_masked :
    "frobnicate".toList ∉
      ["create".toList, "remove".toList, "get".toList, "list".toList,
       "attach".toList, "detach".toList] ∧
    executeRequest ⟨["ds1".toList], fun _ => true, fun _ => true⟩
        "ds1".toList "frobnicate".toList "a-b".toList ≠
      .errOut ("Unknown command:".toList ++ "frobnicate".toList) ∧
    executeRequest ⟨["ds1".toList], fun _ => true, fun _ => true⟩
        "ds1".toList "frobnicate".toList "a-b".toList =
      .errOut (pyStrRepr (parseSyntaxMsg "a-b".toList)) :=
  ⟨by decide, by decide, by decide⟩

/-- C7 (amended): for a non-list request, a volume spec naming no
datastore is served on the caller's home datastore (with no
known-datastore check); a named datastore that is not known fails with
the error text enumerating the known datastores; and a command outside
the six known ones fails with the explicit unknown-command error
provided the spec parses, the datastore resolves and the volume path
initializes — earlier failures report their own errors first. -/
theorem C7_dispatch_amended :
    (∀ env vmds cmd fvn vol,
      cmd ≠ "list".toList →
      parse_vol_name fvn = .ok (vol, none) →
      executeRequest env vmds cmd fvn = executeGo env cmd vol vmds) ∧
    (∀ env vmds cmd fvn vol ds,
      cmd ≠ "list".toList →
      parse_vol_name fvn = .ok (vol, some ds) →
      env.knownDS.contains ds = false →
      executeRequest env vmds cmd fvn = .errOut (invalidDsMsg ds env.knownDS vmds)) ∧
    (∀ env vmds cmd fvn vol dsOpt path,
      cmd ≠ "list".toList →
      parse_vol_name fvn = .ok (vol, dsOpt) →
      (dsOpt = none ∨ ∃ ds, dsOpt = some ds ∧ env.knownDS.contains ds = true) →
      get_vol_path env (dsOpt.getD vmds) = some path →
      cmd ∉ ["create".toList, "remove".toList, "get".toList,
        "attach".toList, "detach".toList] →
      executeRequest env vmds cmd fvn = .errOut ("Unknown command:".toList ++ cmd)) := by
  refine ⟨?_, ?_, ?_⟩
  · intro env vmds cmd fvn vol hcmd hparse
    unfold executeRequest
    rw [if_neg hcmd, hparse]
    rfl
  · intro env vmds cmd fvn vol ds hcmd hparse hk
    unfold executeRequest
    rw [if_neg hcmd, hparse]
    unfold executeAfterParse
    dsimp only
    rw [hk]
    rfl
  · intro env vmds cmd fvn vol dsOpt path hcmd hparse hds hpath hmem
    have hc1 : cmd ≠ "get".toList := by
      intro he
      exact hmem (by rw [he]; simp)
    have hc2 : cmd ≠ "create".toList := by
      intro he
      exact hmem (by rw [he]; simp)
    have hc3 : cmd ≠ "remove".toList := by
      intro he
      exact hmem (by rw [he]; simp)
    have hc4 : cmd ≠ "attach".toList := by
      intro he
      exact hmem (by rw [he]; simp)
    have hc5 : cmd ≠ "detach".toList := by
      intro he
      exact hmem (by rw [he]; simp)
    unfold executeRequest
    rw [if_neg hcmd, hparse]
    rcases hds with rfl | ⟨ds, rfl, hk⟩
    · unfold executeAfterParse
      unfold executeGo
      rw [show (none : Option (List Char)).getD vmds = vmds from rfl] at hpath
      rw [hpath]
      dsimp only
      rw [if_neg hc1, if_neg hc2, if_neg hc3, if_neg hc4, if_neg hc5]
    · unfold executeAfterParse
      dsimp only
      rw [hk]
      rw [show (if true = true then executeGo env cmd vol ds
        else ExecOut.errOut (invalidDsMsg ds env.knownDS vmds)) =
        executeGo env cmd vol ds from rfl]
      unfold executeGo
      rw [show (some ds).getD vmds = ds from rfl] at hpath
      rw [hpath]
      dsimp only
      rw [if_neg hc1, if_neg hc2, if_neg hc3, if_neg hc4, if_neg hc5]

/-- C7 witness: concrete requests exercising the default-datastore
path, the unknown-datastore error, and the unknown-command error. -/
theorem C7_witness :
    executeRequest ⟨["ds1".toList], fun _ => true, fun _ => true⟩
        "ds1".toList "get".toList "v".toList =
      executeGo ⟨["ds1".toList], fun _ => true, fun _ => true⟩
        "get".toList "v".toList "ds1".toList ∧
    executeRequest ⟨["ds1".toList], fun _ => true, fun _ => true⟩
        "ds1".toList "get".toList "v@other".toList =
      .errOut (invalidDsMsg "other".toList ["ds1".toList] "ds1".toList) ∧
    executeRequest ⟨["ds1".toList], fun _ => true, fun _ => true⟩
        "ds1".toList "frobnicate".toList "v".toList =
      .errOut ("Unknown command:".toList ++ "frobnicate".toList) :=
  ⟨C7_dispatch_amended.1 ⟨["ds1".toList], fun _ => true, fun _ => true⟩
      "ds1".toList "get".toList "v".toList "v".toList (by decide) rfl,
   C7_dispatch_amended.2.1 ⟨["ds1".toList], fun _ => true, fun _ => true⟩
      "ds1".toList "get".toList "v@other".toList "v".toList "other".toList
      (by decide) rfl rfl,
   C7_dispatch_amended.2.2 ⟨["ds1".toList], fun _ => true, fun _ => true⟩
      "ds1".toList "frobnicate".toList "v".toList "v".toList none
      "/vmfs/volumes/ds1/dockvols".toList (by decide) rfl (Or.inl rfl) rfl (by decide)⟩
